import Mathlib

/-!
Verification of the legacy factoid import pipeline
(`src/infobot/tools/legacy_import.py` of infobot-reborn).

Shallow embedding conventions:
* Python `str` values are modelled as `List Char` (`Str`); the inputs we
  reason about are ASCII, and character classes (`\w`, `isalnum`, `lower`,
  whitespace) are modelled by their ASCII semantics.
* Python `float` scores are modelled as exact rationals (`ℚ`); every weight
  in the scorer is a small decimal constant.
* Functions that raise `ValueError` are modelled with `Except String`.
* The injected RNG (`random.Random`) is modelled as a stream `ℕ → ℕ`
  together with a cursor; `randrange(n)` reads the next stream value mod
  `n` (Python raises on `n = 0`; every call site reached here has `n ≥ 1`).
* The injectable monotonic clock is modelled as a stream `ℕ → ℚ` with a
  cursor.
-/

set_option maxRecDepth 8000

/-- Python `str` modelled as a list of characters. -/
abbrev Str := List Char

/-- The characters stripped by `strip(" \t\r\n")` in the importer. -/
def importWsChars : List Char := [' ', '\t', '\r', '\n']

/-- Whitespace recognised by Python `str.strip()` / `str.split()` /
regex `\s`, restricted to ASCII. -/
def isPySpace (c : Char) : Bool :=
  c = ' ' || c = '\t' || c = '\n' || c = '\r' || c = '\x0b' || c = '\x0c'

/-- Strip the given characters from the front of a string. -/
def stripLeading (cs : List Char) (l : Str) : Str :=
  l.dropWhile (fun c => cs.contains c)

/-- Strip the given characters from both ends, as Python `str.strip(chars)`. -/
def pyStrip (cs : List Char) (l : Str) : Str :=
  ((stripLeading cs l).reverse.dropWhile (fun c => cs.contains c)).reverse

/-- Python `str.strip()` with no argument (ASCII whitespace). -/
def pyStripWs (l : Str) : Str :=
  ((l.dropWhile isPySpace).reverse.dropWhile isPySpace).reverse

/-- Python `str.lower()` restricted to ASCII letters. -/
def pyLower (l : Str) : Str := l.map Char.toLower

/-- Substring test: does `needle` occur contiguously inside `hay`?
Models Python's `needle in hay`. -/
def hasSubstr (needle : Str) : Str → Bool
  | [] => needle.isPrefixOf []
  | c :: rest => needle.isPrefixOf (c :: rest) || hasSubstr needle rest

/-- The two-character factoid separator `=>`. -/
def factoidSep : Str := ['=', '>']

/-- Split a line at the first occurrence of `=>`, as
`line.split("=>", 1)` after the `"=>" in line` membership test:
`some (before, after)` when the separator occurs, `none` otherwise. -/
def splitFirstSep : Str → Option (Str × Str)
  | [] => none
  | c :: rest =>
      if factoidSep.isPrefixOf (c :: rest) then some ([], rest.tail)
      else
        match splitFirstSep rest with
        | some (a, b) => some (c :: a, b)
        | none => none

/-- Source: `parse_factoid_line`. Split on the first `=>`, strip plain
whitespace (`" \t\r\n"`) from both sides, reject empty sides. -/
def parseFactoidLine (line : Str) : Option (Str × Str) :=
  match splitFirstSep line with
  | none => none
  | some (k, v) =>
      let key := pyStrip importWsChars k
      let value := pyStrip importWsChars v
      if key = [] ∨ value = [] then none else some (key, value)

theorem splitFirstSep_eq_none_iff (l : Str) :
    splitFirstSep l = none ↔ hasSubstr factoidSep l = false := by
  induction l with
  | nil => simp [splitFirstSep, hasSubstr, factoidSep, List.isPrefixOf]
  | cons c rest ih =>
      by_cases hsep : factoidSep.isPrefixOf (c :: rest)
      · simp [splitFirstSep, hasSubstr, hsep]
      · simp only [splitFirstSep, hsep, if_false, Bool.false_eq_true]
        have hns : hasSubstr factoidSep (c :: rest) = hasSubstr factoidSep rest := by
          simp [hasSubstr, hsep]
        rw [hns, ← ih]
        rcases h : splitFirstSep rest with _ | ⟨a, b⟩ <;> simp

theorem sep_prefix_of_append {c : Char} {a x : Str} (hne : a ≠ [])
    (h : factoidSep.isPrefixOf ((c :: a) ++ x)) : factoidSep.isPrefixOf (c :: a) := by
  have hp : factoidSep <+: (c :: a) ++ x := List.isPrefixOf_iff_prefix.mp h
  have hlen : factoidSep.length ≤ (c :: a).length := by
    rcases a with _ | ⟨d, t⟩
    · exact absurd rfl hne
    · simp [factoidSep]
  have h2 : factoidSep = ((c :: a) ++ x).take factoidSep.length :=
    List.prefix_iff_eq_take.mp hp
  rw [List.take_append_of_le_length hlen] at h2
  exact List.isPrefixOf_iff_prefix.mpr (h2 ▸ List.take_prefix _ _)

theorem splitFirstSep_eq_some {l a b : Str} (h : splitFirstSep l = some (a, b)) :
    l = a ++ factoidSep ++ b ∧ hasSubstr factoidSep a = false := by
  induction l generalizing a b with
  | nil => simp [splitFirstSep] at h
  | cons c rest ih =>
      rw [splitFirstSep] at h
      by_cases hsep : factoidSep.isPrefixOf (c :: rest)
      · rw [if_pos hsep] at h
        have hdec : ∃ t, c :: rest = '=' :: '>' :: t := by
          rcases rest with _ | ⟨d, t⟩
          · simp [factoidSep, List.isPrefixOf] at hsep
          · simp only [factoidSep, List.isPrefixOf, Bool.and_eq_true, beq_iff_eq] at hsep
            exact ⟨t, by rw [← hsep.1, ← hsep.2.1]⟩
        rcases hdec with ⟨t, ht⟩
        rcases ht with ⟨rfl, rfl⟩
        obtain ⟨rfl, rfl⟩ : a = [] ∧ b = t := by simpa using h.symm
        refine ⟨rfl, ?_⟩
        simp [hasSubstr, factoidSep, List.isPrefixOf]
      · rw [if_neg hsep] at h
        rcases hr : splitFirstSep rest with _ | ⟨a2, b2⟩ <;> rw [hr] at h
        · simp at h
        · simp only [Option.some.injEq, Prod.mk.injEq] at h
          obtain ⟨hdec, hsub⟩ := ih hr
          have hpf : factoidSep.isPrefixOf (c :: a2) = false := by
            by_contra hcon
            have htrue : factoidSep.isPrefixOf (c :: a2) := by
              cases hv : factoidSep.isPrefixOf (c :: a2)
              · exact absurd hv hcon
              · rfl
            have hext : factoidSep <+: (c :: a2) ++ (factoidSep ++ b2) :=
              (List.isPrefixOf_iff_prefix.mp htrue).trans (List.prefix_append _ _)
            have hx : (c :: a2) ++ (factoidSep ++ b2) = c :: rest := by
              simp [hdec]
            rw [hx] at hext
            exact hsep (List.isPrefixOf_iff_prefix.mpr hext)
          refine ⟨?_, ?_⟩
          · rw [← h.1, ← h.2, hdec]
            simp
          · rw [← h.1]
            simp [hasSubstr, hpf, hsub]

theorem splitFirstSep_of_decomp (a b : Str) (hsub : hasSubstr factoidSep a = false) :
    splitFirstSep (a ++ factoidSep ++ b) = some (a, b) := by
  induction a with
  | nil =>
      show splitFirstSep ('=' :: '>' :: b) = some ([], b)
      have hp : factoidSep.isPrefixOf ('=' :: '>' :: b) = true := by
        simp [factoidSep, List.isPrefixOf]
      rw [splitFirstSep, if_pos hp]
      rfl
  | cons c a2 ih =>
      have hparts : factoidSep.isPrefixOf (c :: a2) = false ∧
          hasSubstr factoidSep a2 = false := by
        have := hsub
        rw [hasSubstr] at this
        exact ⟨by simpa using (Bool.or_eq_false_iff.mp this).1,
               (Bool.or_eq_false_iff.mp this).2⟩
      have hx : (c :: a2) ++ factoidSep ++ b = c :: (a2 ++ factoidSep ++ b) := by simp
      rw [hx, splitFirstSep, if_neg, ih hparts.2]
      intro hcon
      rcases ha2 : a2 with _ | ⟨d, t⟩
      · subst ha2
        simp [factoidSep, List.isPrefixOf] at hcon
      · rw [ha2] at hparts hcon
        have : factoidSep.isPrefixOf (c :: d :: t) :=
          sep_prefix_of_append (by simp) (by simpa using hcon)
        rw [this] at hparts
        exact absurd hparts.1 (by simp)

/-- C7: `parse_factoid_line` is total (a pure function returning an
`Option`, never raising) and: it returns `none` exactly when the line has
no `=>` separator or either side is empty after trimming the plain
whitespace characters `" \t\r\n"`; otherwise it returns the two sides of
the first `=>`, each trimmed of plain whitespace only (all other
characters, control characters included, are preserved). -/
theorem c7_parse_factoid_line_characterization (l : Str) :
    (hasSubstr factoidSep l = false → parseFactoidLine l = none) ∧
    (∀ a b : Str, l = a ++ factoidSep ++ b → hasSubstr factoidSep a = false →
      parseFactoidLine l =
        if pyStrip importWsChars a = [] ∨ pyStrip importWsChars b = [] then none
        else some (pyStrip importWsChars a, pyStrip importWsChars b)) ∧
    (∀ k v : Str, parseFactoidLine l = some (k, v) →
      ∃ a b : Str, l = a ++ factoidSep ++ b ∧ hasSubstr factoidSep a = false ∧
        k = pyStrip importWsChars a ∧ v = pyStrip importWsChars b ∧
        k ≠ [] ∧ v ≠ []) := by
  refine ⟨?_, ?_, ?_⟩
  · intro hno
    have : splitFirstSep l = none := (splitFirstSep_eq_none_iff l).mpr hno
    rw [parseFactoidLine, this]
  · intro a b hdec hsub
    subst hdec
    rw [parseFactoidLine, splitFirstSep_of_decomp a b hsub]
  · intro k v hkv
    rw [parseFactoidLine] at hkv
    rcases hs : splitFirstSep l with _ | ⟨a, b⟩ <;> rw [hs] at hkv
    · simp at hkv
    · obtain ⟨hdec, hsub⟩ := splitFirstSep_eq_some hs
      dsimp only at hkv
      by_cases hemp : pyStrip importWsChars a = [] ∨ pyStrip importWsChars b = []
      · rw [if_pos hemp] at hkv
        simp at hkv
      · simp only [hemp, if_false, Option.some.injEq, Prod.mk.injEq] at hkv
        push_neg at hemp
        exact ⟨a, b, hdec, hsub, hkv.1.symm, hkv.2.symm,
          hkv.1 ▸ hemp.1, hkv.2 ▸ hemp.2⟩

/-- Witness for C7 at the concrete line `"  python =>  a language \t"`. -/
theorem c7_parse_factoid_line_characterization_witness :
    parseFactoidLine ("  python =>  a language \t".toList) =
      some ("python".toList, "a language".toList) := by
  have h := (c7_parse_factoid_line_characterization
    ("  python =>  a language \t".toList)).2.1
    ("  python ".toList) ("  a language \t".toList) (by decide) (by decide)
  rw [h]
  decide

/-- Number of histogram buckets (`QUALITY_BUCKET_COUNT`). -/
def QUALITY_BUCKET_COUNT : ℕ := 10

/-- The percentiles requested for diagnostics (`QUALITY_PERCENTILES`). -/
def QUALITY_PERCENTILES : List ℕ := [50, 75, 90, 95]

/-- Source: `clamp_quality_score`, `max(0.0, min(1.0, quality_score))`. -/
def clampQualityScore (quality_score : ℚ) : ℚ := max 0 (min 1 quality_score)

/-- Source: `get_quality_bucket_index`. Python's `int()` truncates toward
zero; the clamped score is nonnegative, so it is the floor. -/
def getQualityBucketIndex (quality_score : ℚ) : ℕ :=
  let clamped_score := clampQualityScore quality_score
  if 1 ≤ clamped_score then QUALITY_BUCKET_COUNT - 1
  else (⌊clamped_score * (QUALITY_BUCKET_COUNT : ℚ)⌋).toNat

/-- Source: dataclass `QualitySample`. -/
structure QualitySample where
  source_file : Str
  line_number : ℕ
  key : Str
  value_preview : Str
  score : ℚ
deriving DecidableEq, Repr

/-- Source: dataclass `ImportStats` with its field defaults. -/
structure ImportStats where
  total_lines : ℕ := 0
  parsed : ℕ := 0
  skipped_invalid : ℕ := 0
  skipped_low_quality : ℕ := 0
  imported : ℕ := 0
  duplicates : ℕ := 0
  errors : ℕ := 0
  quality_observations : ℕ := 0
  quality_score_sum : ℚ := 0
  quality_min : Option ℚ := none
  quality_max : Option ℚ := none
  quality_buckets : List ℕ := List.replicate QUALITY_BUCKET_COUNT 0
  quality_p50 : Option ℚ := none
  quality_p75 : Option ℚ := none
  quality_p90 : Option ℚ := none
  quality_p95 : Option ℚ := none
  accepted_candidates : ℕ := 0
  rejected_candidates : ℕ := 0
  accepted_samples : List QualitySample := []
  rejected_samples : List QualitySample := []
deriving DecidableEq, Repr

/-- A fresh `ImportStats()` with all dataclass defaults. -/
def initialImportStats : ImportStats := {}

/-- Source: `update_quality_aggregates`. -/
def updateQualityAggregates (stats : ImportStats) (quality_score : ℚ)
    (accepted : Bool) : ImportStats :=
  let clamped_score := clampQualityScore quality_score
  let idx := getQualityBucketIndex clamped_score
  { stats with
    quality_observations := stats.quality_observations + 1
    quality_score_sum := stats.quality_score_sum + clamped_score
    quality_min := some (match stats.quality_min with
      | none => clamped_score
      | some m => min m clamped_score)
    quality_max := some (match stats.quality_max with
      | none => clamped_score
      | some m => max m clamped_score)
    quality_buckets :=
      stats.quality_buckets.set idx (stats.quality_buckets.getD idx 0 + 1)
    accepted_candidates :=
      if accepted then stats.accepted_candidates + 1 else stats.accepted_candidates
    rejected_candidates :=
      if accepted then stats.rejected_candidates else stats.rejected_candidates + 1 }

theorem clampQualityScore_nonneg (q : ℚ) : 0 ≤ clampQualityScore q :=
  le_max_left 0 _

theorem clampQualityScore_le_one (q : ℚ) : clampQualityScore q ≤ 1 :=
  max_le (by norm_num) (min_le_left 1 q)

theorem clampQualityScore_idem (q : ℚ) :
    clampQualityScore (clampQualityScore q) = clampQualityScore q := by
  unfold clampQualityScore
  rcases le_total 1 q with h | h <;> rcases le_total 0 q with h0 | h0 <;>
    simp [min_def, max_def] <;> split_ifs <;> try linarith

theorem getQualityBucketIndex_lt (q : ℚ) : getQualityBucketIndex q < 10 := by
  unfold getQualityBucketIndex
  by_cases h : 1 ≤ clampQualityScore q
  · simp [h, QUALITY_BUCKET_COUNT]
  · rw [if_neg h]
    push_neg at h
    have h10 : clampQualityScore q * (QUALITY_BUCKET_COUNT : ℚ) < 10 := by
      have hnn := clampQualityScore_nonneg q
      have : (QUALITY_BUCKET_COUNT : ℚ) = 10 := by norm_num [QUALITY_BUCKET_COUNT]
      rw [this]
      nlinarith
    have hfl : ⌊clampQualityScore q * (QUALITY_BUCKET_COUNT : ℚ)⌋ < 10 := by
      exact_mod_cast Int.floor_lt.mpr (by exact_mod_cast h10)
    omega

theorem sum_set_getD_add_one (l : List ℕ) (i : ℕ) (h : i < l.length) :
    (l.set i (l.getD i 0 + 1)).sum = l.sum + 1 := by
  induction l generalizing i with
  | nil => simp at h
  | cons a t ih =>
      cases i with
      | zero =>
          simp only [List.getD, List.get?_cons_zero, Option.getD_some, List.set,
            List.sum_cons]
          omega
      | succ i =>
          simp only [List.getD, List.get?_cons_succ, List.set, List.sum_cons]
          have := ih i (by simpa using h)
          simp only [List.getD] at this
          rw [this]
          omega

/-- C8: the histogram bucket index used by the telemetry update is
`floor(clamp(score) * 10)`, except that a clamped score of exactly 1.0
maps to the last bucket (index 9), never to the out-of-range index 10;
consequently each call of `update_quality_aggregates` increments exactly
one of the 10 buckets (one bucket gains one, the others are untouched,
and the total count rises by one). -/
theorem c8_bucket_index_update (s : ℚ) :
    (clampQualityScore s < 1 →
      getQualityBucketIndex s = (⌊clampQualityScore s * 10⌋).toNat) ∧
    (clampQualityScore s = 1 → getQualityBucketIndex s = 9) ∧
    getQualityBucketIndex s < 10 ∧
    (∀ (stats : ImportStats) (accepted : Bool),
      stats.quality_buckets.length = 10 →
      (updateQualityAggregates stats s accepted).quality_buckets.sum =
          stats.quality_buckets.sum + 1 ∧
      (updateQualityAggregates stats s accepted).quality_buckets.getD
          (getQualityBucketIndex s) 0 =
        stats.quality_buckets.getD (getQualityBucketIndex s) 0 + 1 ∧
      ∀ j : ℕ, j ≠ getQualityBucketIndex s →
        (updateQualityAggregates stats s accepted).quality_buckets.getD j 0 =
          stats.quality_buckets.getD j 0) := by
  have hidx9 : getQualityBucketIndex s < 10 := getQualityBucketIndex_lt s
  refine ⟨?_, ?_, hidx9, ?_⟩
  · intro hlt
    unfold getQualityBucketIndex
    rw [if_neg (by exact not_le.mpr hlt)]
    norm_num [QUALITY_BUCKET_COUNT]
  · intro heq
    unfold getQualityBucketIndex
    rw [if_pos (le_of_eq heq.symm)]
    norm_num [QUALITY_BUCKET_COUNT]
  · intro stats accepted hlen
    have hidx_eq : getQualityBucketIndex (clampQualityScore s) =
        getQualityBucketIndex s := by
      unfold getQualityBucketIndex
      rw [clampQualityScore_idem]
    have hbuck : (updateQualityAggregates stats s accepted).quality_buckets =
        stats.quality_buckets.set (getQualityBucketIndex s)
          (stats.quality_buckets.getD (getQualityBucketIndex s) 0 + 1) := by
      unfold updateQualityAggregates
      simp [hidx_eq]
    have hlt : getQualityBucketIndex s < stats.quality_buckets.length := by
      omega
    refine ⟨?_, ?_, ?_⟩
    · rw [hbuck]
      exact sum_set_getD_add_one _ _ hlt
    · rw [hbuck]
      simp [List.getD, List.getElem?_set_eq_of_lt _ hlt]
    · intro j hj
      rw [hbuck]
      have hne : getQualityBucketIndex s ≠ j := fun he => hj he.symm
      simp [List.getD, List.getElem?_set_ne hne]

/-- Witness for C8 at score 1 (clamps to 1, lands in bucket 9) and at the
initial stats record. -/
theorem c8_bucket_index_update_witness :
    getQualityBucketIndex 1 = 9 ∧
    (updateQualityAggregates initialImportStats 1 true).quality_buckets.sum =
      initialImportStats.quality_buckets.sum + 1 := by
  refine ⟨(c8_bucket_index_update 1).2.1 (by decide), ?_⟩
  exact ((c8_bucket_index_update 1).2.2.2 initialImportStats true (by decide)).1

/-- Lower score bound of histogram bucket `idx` (`bucket_index / 10`). -/
def bucketLower (idx : ℕ) : ℚ := (idx : ℚ) / (QUALITY_BUCKET_COUNT : ℚ)

/-- Upper score bound of histogram bucket `idx` (`(bucket_index + 1) / 10`). -/
def bucketUpper (idx : ℕ) : ℚ := ((idx : ℚ) + 1) / (QUALITY_BUCKET_COUNT : ℚ)

/-- Target rank `max(1, ceil(total_samples * percentile / 100))`.
`total * p / 100` is exact here (no float error): for the requested
percentiles the float product rounds to the exact value. -/
def targetRank (total_samples p : ℕ) : ℕ :=
  max 1 ((total_samples * p + 99) / 100)

/-- The bucket walk of `compute_quality_percentiles`: accumulate counts
until the cumulative count reaches the target rank, then interpolate
linearly inside that bucket (`upper` fallback for an empty bucket). -/
def percentileWalk (idx prev rank : ℕ) : List ℕ → Option ℚ
  | [] => none
  | c :: rest =>
      if prev + c < rank then percentileWalk (idx + 1) (prev + c) rank rest
      else
        some (clampQualityScore
          (if c = 0 then bucketUpper idx
           else bucketLower idx +
             (bucketUpper idx - bucketLower idx) *
               (((rank : ℚ) - (prev : ℚ)) / (c : ℚ))))

/-- Per-percentile loop body of `compute_quality_percentiles`: validate
each requested percentile in order, then walk the histogram. -/
def percentileResults (counts : List ℕ) : List ℕ → Except String (List (ℕ × Option ℚ))
  | [] => .ok []
  | p :: ps =>
      if 100 < p then .error "percentile must be in [0, 100]"
      else
        match percentileResults counts ps with
        | .error e => .error e
        | .ok rest =>
            .ok ((p, percentileWalk 0 0 (targetRank counts.sum p) counts) :: rest)

/-- Source: `compute_quality_percentiles`. Length-10 validation, early
`None`-for-all return on an empty histogram, then the per-percentile
walk. (The result dictionary is modelled as an association list in
request order.) -/
def computeQualityPercentiles (bucket_counts : List ℕ)
    (percentiles : List ℕ := QUALITY_PERCENTILES) :
    Except String (List (ℕ × Option ℚ)) :=
  if bucket_counts.length ≠ QUALITY_BUCKET_COUNT then
    .error "bucket_counts must have 10 buckets"
  else if bucket_counts.sum = 0 then .ok (percentiles.map fun p => (p, none))
  else percentileResults bucket_counts percentiles

/-- The value `compute_quality_percentiles` associates with one requested
percentile. -/
def percentileValue (counts : List ℕ) (p : ℕ) : Option ℚ :=
  if counts.sum = 0 then none
  else percentileWalk 0 0 (targetRank counts.sum p) counts

/-- Pointwise order on optional percentile estimates: `None` pairs with
`None`, present values must be ordered. -/
def optionScoreLe : Option ℚ → Option ℚ → Prop
  | none, none => True
  | some a, some b => a ≤ b
  | _, _ => False

theorem bucketLower_le_upper (idx : ℕ) : bucketLower idx ≤ bucketUpper idx := by
  unfold bucketLower bucketUpper QUALITY_BUCKET_COUNT
  apply div_le_div_of_nonneg_right _ (by norm_num)
  · linarith
theorem bucketUpper_eq_lower_succ (idx : ℕ) : bucketUpper idx = bucketLower (idx + 1) := by
  unfold bucketLower bucketUpper
  push_cast
  ring

theorem clampQualityScore_mono {a b : ℚ} (h : a ≤ b) :
    clampQualityScore a ≤ clampQualityScore b :=
  max_le_max le_rfl (min_le_min le_rfl h)

theorem percentileWalk_lower_bound (counts : List ℕ) :
    ∀ idx prev rank : ℕ, prev < rank → rank ≤ prev + counts.sum →
    ∃ q, percentileWalk idx prev rank counts = some q ∧
      clampQualityScore (bucketLower idx) ≤ q := by
  induction counts with
  | nil =>
      intro idx prev rank h1 h2
      simp only [List.sum_nil, Nat.add_zero] at h2
      omega
  | cons c rest ih =>
      intro idx prev rank h1 h2
      rw [percentileWalk]
      by_cases hcont : prev + c < rank
      · rw [if_pos hcont]
        obtain ⟨q, hq, hb⟩ := ih (idx + 1) (prev + c) rank hcont
          (by simp only [List.sum_cons] at h2; omega)
        refine ⟨q, hq, le_trans ?_ hb⟩
        apply clampQualityScore_mono
        rw [← bucketUpper_eq_lower_succ]
        exact bucketLower_le_upper idx
      · rw [if_neg hcont]
        refine ⟨_, rfl, ?_⟩
        apply clampQualityScore_mono
        by_cases hc0 : c = 0
        · rw [if_pos hc0]
          exact bucketLower_le_upper idx
        · rw [if_neg hc0]
          have hcpos : (0 : ℚ) < (c : ℚ) := by
            exact_mod_cast Nat.pos_of_ne_zero hc0
        
          have hpos : 0 < ((rank : ℚ) - (prev : ℚ)) / (c : ℚ) := by
            apply div_pos _ hcpos
            have : (prev : ℚ) < (rank : ℚ) := by exact_mod_cast h1
            linarith
          nlinarith [bucketLower_le_upper idx]

theorem percentileWalk_mono (counts : List ℕ) :
    ∀ idx prev r r' : ℕ, prev < r → r ≤ r' → r' ≤ prev + counts.sum →
    ∃ q q', percentileWalk idx prev r counts = some q ∧
      percentileWalk idx prev r' counts = some q' ∧ q ≤ q' := by
  induction counts with
  | nil =>
      intro idx prev r r' h1 h2 h3
      simp only [List.sum_nil, Nat.add_zero] at h3
      omega
  | cons c rest ih =>
      intro idx prev r r' h1 h2 h3
      have hsum : r' ≤ prev + c + rest.sum := by
        simp only [List.sum_cons] at h3
        omega
      by_cases hr : prev + c < r
      · have hr' : prev + c < r' := lt_of_lt_of_le hr h2
        rw [percentileWalk, if_pos hr, percentileWalk, if_pos hr']
        exact ih (idx + 1) (prev + c) r r' hr h2 hsum
      · have hcr : r ≤ prev + c := not_lt.mp hr
        have hc1 : 1 ≤ c := by omega
        have hcpos : (0 : ℚ) < (c : ℚ) := by exact_mod_cast hc1
        have hul : 0 ≤ bucketUpper idx - bucketLower idx := by
          have := bucketLower_le_upper idx
          linarith
        by_cases hr' : prev + c < r'
        · rw [percentileWalk, if_neg hr, percentileWalk, if_pos hr']
          obtain ⟨q', hq', hb'⟩ := percentileWalk_lower_bound rest (idx + 1)
            (prev + c) r' hr' hsum
          refine ⟨_, q', rfl, hq', ?_⟩
          have hinterp_le : (if c = 0 then bucketUpper idx
              else bucketLower idx + (bucketUpper idx - bucketLower idx) *
                (((r : ℚ) - (prev : ℚ)) / (c : ℚ))) ≤ bucketUpper idx := by
            rw [if_neg (by omega : ¬ c = 0)]
            have hratio : ((r : ℚ) - (prev : ℚ)) / (c : ℚ) ≤ 1 := by
              rw [div_le_one hcpos]
              have : (r : ℚ) ≤ (prev : ℚ) + (c : ℚ) := by exact_mod_cast hcr
              linarith
            nlinarith
          refine le_trans (clampQualityScore_mono hinterp_le) ?_
          rw [bucketUpper_eq_lower_succ]
          exact hb'
        · have hcr' : r' ≤ prev + c := not_lt.mp hr'
          rw [percentileWalk, if_neg hr, percentileWalk, if_neg hr']
          rw [if_neg (by omega : ¬ c = 0), if_neg (by omega : ¬ c = 0)]
          refine ⟨_, _, rfl, rfl, ?_⟩
          apply clampQualityScore_mono
          have hrr : (r : ℚ) ≤ (r' : ℚ) := by exact_mod_cast h2
          have hfrac : ((r : ℚ) - (prev : ℚ)) / (c : ℚ) ≤
              ((r' : ℚ) - (prev : ℚ)) / (c : ℚ) := by
            apply div_le_div_of_nonneg_right _ hcpos.le
            linarith
          exact add_le_add_left (mul_le_mul_of_nonneg_left hfrac hul) _

theorem targetRank_le_total {total p : ℕ} (htot : total ≠ 0) (hp : p ≤ 100) :
    targetRank total p ≤ total := by
  unfold targetRank
  have h1 : total * p + 99 ≤ total * 100 + 99 :=
    Nat.add_le_add_right (Nat.mul_le_mul_left _ hp) _
  have h2 : (total * p + 99) / 100 ≤ (total * 100 + 99) / 100 :=
    Nat.div_le_div_right h1
  have h3 : (total * 100 + 99) / 100 = total := by
    rw [Nat.mul_comm, Nat.mul_add_div (by norm_num)]
    omega
  omega

theorem targetRank_mono {total p p' : ℕ} (h : p ≤ p') :
    targetRank total p ≤ targetRank total p' := by
  unfold targetRank
  have : (total * p + 99) / 100 ≤ (total * p' + 99) / 100 :=
    Nat.div_le_div_right (Nat.add_le_add_right (Nat.mul_le_mul_left _ h) _)
  omega

theorem computeQualityPercentiles_default_ok (counts : List ℕ)
    (hlen : counts.length = QUALITY_BUCKET_COUNT) :
    computeQualityPercentiles counts QUALITY_PERCENTILES =
      .ok (QUALITY_PERCENTILES.map fun p => (p, percentileValue counts p)) := by
  unfold computeQualityPercentiles
  rw [if_neg (by omega)]
  by_cases hsum : counts.sum = 0
  · rw [if_pos hsum]
    simp [percentileValue, hsum]
  · rw [if_neg hsum]
    simp only [QUALITY_PERCENTILES, percentileResults, percentileValue, hsum,
      if_false, List.map]
    norm_num

/-- C6: for any fixed 10-bucket histogram, the percentile estimates of
`compute_quality_percentiles` are monotonically non-decreasing in the
requested percentile (over the requested set 50/75/90/95), and on an
all-zero histogram the estimator returns `None` for every requested
percentile. -/
theorem c6_percentiles_monotone_and_empty (counts : List ℕ)
    (hlen : counts.length = QUALITY_BUCKET_COUNT) :
    computeQualityPercentiles counts QUALITY_PERCENTILES =
      .ok (QUALITY_PERCENTILES.map fun p => (p, percentileValue counts p)) ∧
    (∀ p p', p ∈ QUALITY_PERCENTILES → p' ∈ QUALITY_PERCENTILES → p ≤ p' →
      optionScoreLe (percentileValue counts p) (percentileValue counts p')) ∧
    (counts.sum = 0 → ∀ p : ℕ, percentileValue counts p = none) := by
  refine ⟨computeQualityPercentiles_default_ok counts hlen, ?_, ?_⟩
  · intro p p' hp hp' hpp
    have hp100 : p ≤ 100 := by fin_cases hp <;> norm_num
    have hp'100 : p' ≤ 100 := by fin_cases hp' <;> norm_num
    by_cases hsum : counts.sum = 0
    · simp [percentileValue, hsum, optionScoreLe]
    · have h1 : (0 : ℕ) < targetRank counts.sum p := by
        unfold targetRank
        omega
      have h2 : targetRank counts.sum p ≤ targetRank counts.sum p' :=
        targetRank_mono hpp
      have h3 : targetRank counts.sum p' ≤ 0 + counts.sum := by
        rw [Nat.zero_add]
        exact targetRank_le_total hsum hp'100
      obtain ⟨q, q', hq, hq', hle⟩ :=
        percentileWalk_mono counts 0 0 _ _ h1 h2 h3
      simp only [percentileValue, hsum, if_false]
      rw [hq, hq']
      exact hle
  · intro hsum p
    simp [percentileValue, hsum]

/-- Witness for C6: a clustered histogram and the all-zero histogram. -/
theorem c6_percentiles_monotone_and_empty_witness :
    optionScoreLe (percentileValue [0, 0, 0, 0, 0, 10, 0, 0, 0, 0] 50)
      (percentileValue [0, 0, 0, 0, 0, 10, 0, 0, 0, 0] 95) ∧
    (∀ p : ℕ, percentileValue (List.replicate 10 0) p = none) := by
  refine ⟨(c6_percentiles_monotone_and_empty [0, 0, 0, 0, 0, 10, 0, 0, 0, 0]
    (by decide)).2.1 50 95 (by decide) (by decide) (by decide), ?_⟩
  exact (c6_percentiles_monotone_and_empty (List.replicate 10 0)
    (by decide)).2.2 (by decide)

/-- Dictionary access `percentile_values[p]`. With the default percentile
list the key is always present; a missing key is modelled as `none`. -/
def lookupPercentile (percentile_values : List (ℕ × Option ℚ)) (p : ℕ) : Option ℚ :=
  match percentile_values.lookup p with
  | some v => v
  | none => none

/-- Source: `refresh_quality_percentiles`, writing the four percentile
fields back into the stats record. -/
def refreshQualityPercentiles (stats : ImportStats) : Except String ImportStats :=
  match computeQualityPercentiles stats.quality_buckets with
  | .error e => .error e
  | .ok percentile_values => .ok { stats with
      quality_p50 := lookupPercentile percentile_values 50
      quality_p75 := lookupPercentile percentile_values 75
      quality_p90 := lookupPercentile percentile_values 90
      quality_p95 := lookupPercentile percentile_values 95 }

theorem refreshQualityPercentiles_ok (stats : ImportStats)
    (hlen : stats.quality_buckets.length = QUALITY_BUCKET_COUNT) :
    refreshQualityPercentiles stats = .ok { stats with
      quality_p50 := percentileValue stats.quality_buckets 50
      quality_p75 := percentileValue stats.quality_buckets 75
      quality_p90 := percentileValue stats.quality_buckets 90
      quality_p95 := percentileValue stats.quality_buckets 95 } := by
  unfold refreshQualityPercentiles
  rw [computeQualityPercentiles_default_ok _ hlen]
  simp [QUALITY_PERCENTILES, lookupPercentile, List.lookup]

/-- Source: dataclass `ThresholdGuidance`. -/
structure ThresholdGuidance where
  current_threshold : ℚ
  suggested_threshold : Option ℚ
  confidence : String
  rationale : String
deriving DecidableEq, Repr

/-- Python `round(x, 2)` idealized over exact rationals: round to the
nearest multiple of 1/100, ties to even. -/
def pythonRound2 (x : ℚ) : ℚ :=
  let y := x * 100
  let fl := ⌊y⌋
  let n : ℤ :=
    if y - fl > 1 / 2 then fl + 1
    else if y - fl < 1 / 2 then fl
    else if fl % 2 = 0 then fl else fl + 1
  (n : ℚ) / 100

/-- Source: `build_threshold_guidance`. Threshold and sample-size
validation, percentile refresh, the minimum-sample-size gate, then the
reject-rate rules. -/
def buildThresholdGuidance (stats : ImportStats) (quality_threshold : ℚ)
    (min_sample_size : ℕ := 50) : Except String ThresholdGuidance :=
  if ¬(0 ≤ quality_threshold ∧ quality_threshold ≤ 1) then
    .error "quality-threshold must be between 0.0 and 1.0"
  else if min_sample_size = 0 then
    .error "min_sample_size must be > 0"
  else
    match refreshQualityPercentiles stats with
    | .error e => .error e
    | .ok stats2 =>
        if stats2.quality_observations < min_sample_size then
          .ok { current_threshold := quality_threshold
                suggested_threshold := none
                confidence := "low"
                rationale := "Insufficient scored candidates for recommendation (" ++
                  toString stats2.quality_observations ++ "/" ++
                  toString min_sample_size ++ ")." }
        else
          let reject_rate : ℚ :=
            if stats2.quality_observations ≠ 0 then
              (stats2.rejected_candidates : ℚ) / (stats2.quality_observations : ℚ)
            else 0
          let chosen : ℚ × String :=
            if 4 / 5 < reject_rate ∧ stats2.quality_p50.isSome then
              (pythonRound2 (stats2.quality_p50.getD 0),
               "High reject rate observed; consider lowering threshold toward p50.")
            else if reject_rate < 1 / 20 ∧ stats2.quality_p90.isSome then
              (pythonRound2 (stats2.quality_p90.getD 0),
               "Very low reject rate observed; consider raising threshold toward p90.")
            else
              (quality_threshold, "Threshold appears balanced; keep current setting.")
          .ok { current_threshold := quality_threshold
                suggested_threshold := some chosen.1
                confidence := "medium"
                rationale := chosen.2 }

/-- C9: with fewer scored candidates than `min_sample_size` (default 50),
`build_threshold_guidance` returns confidence "low", no suggested
threshold, and a non-empty explanatory rationale; with at least
`min_sample_size` scored candidates it returns confidence "medium". -/
theorem c9_guidance_sample_size_gate (stats : ImportStats) (t : ℚ) (mss : ℕ)
    (hlen : stats.quality_buckets.length = QUALITY_BUCKET_COUNT)
    (ht0 : 0 ≤ t) (ht1 : t ≤ 1) (hmss : 0 < mss) :
    (stats.quality_observations < mss →
      ∃ g, buildThresholdGuidance stats t mss = .ok g ∧
        g.confidence = "low" ∧ g.suggested_threshold = none ∧ g.rationale ≠ "") ∧
    (mss ≤ stats.quality_observations →
      ∃ g, buildThresholdGuidance stats t mss = .ok g ∧ g.confidence = "medium") := by
  unfold buildThresholdGuidance
  rw [if_neg (not_not_intro ⟨ht0, ht1⟩), if_neg (by omega : ¬ mss = 0),
    refreshQualityPercentiles_ok stats hlen]
  dsimp only
  constructor
  · intro hlt
    rw [if_pos hlt]
    refine ⟨_, rfl, rfl, rfl, ?_⟩
    intro he
    have hlen2 := congrArg String.length he
    simp only [String.length_append] at hlen2
    have hbase :
        0 < ("Insufficient scored candidates for recommendation (" : String).length := by
      decide
    have h0 : ("" : String).length = 0 := rfl
    rw [h0] at hlen2
    omega
  · intro hge
    rw [if_neg (not_lt.mpr hge)]
    exact ⟨_, rfl, rfl⟩

/-- Witness for C9: the empty stats record (0 observations) and a record
with 100 observations. -/
theorem c9_guidance_sample_size_gate_witness :
    (∃ g, buildThresholdGuidance initialImportStats (1/2) 50 = .ok g ∧
      g.confidence = "low" ∧ g.suggested_threshold = none ∧ g.rationale ≠ "") ∧
    (∃ g, buildThresholdGuidance
        { initialImportStats with quality_observations := 100 } (1/2) 50 = .ok g ∧
      g.confidence = "medium") := by
  constructor
  · exact (c9_guidance_sample_size_gate initialImportStats (1/2) 50 (by decide)
      (by norm_num) (by norm_num) (by norm_num)).1 (by decide)
  · exact (c9_guidance_sample_size_gate
      { initialImportStats with quality_observations := 100 } (1/2) 50 (by decide)
      (by norm_num) (by norm_num) (by norm_num)).2 (by decide)

/-- A stats record as produced by importing 100 lines at threshold 0.553:
90 rejected candidates scoring 0.55 (bucket 5) and 10 accepted scoring
0.60 (bucket 6). -/
def c3Stats : ImportStats :=
  { total_lines := 100, parsed := 100, skipped_low_quality := 90, imported := 10,
    quality_observations := 100, quality_score_sum := 111/2,
    quality_min := some (11/20), quality_max := some (3/5),
    quality_buckets := [0, 0, 0, 0, 0, 90, 10, 0, 0, 0],
    accepted_candidates := 10, rejected_candidates := 90 }

/-- C3 counterexample: `c3Stats` has 100 >= 50 scored candidates and
reject rate exactly 0.9, yet `build_threshold_guidance` at current
threshold 0.553 suggests round(p50, 2) = 0.56, which is strictly greater
than the current threshold — the claim "suggested <= current" fails. -/
theorem c3_counterexample_suggested_above_current :
    50 ≤ c3Stats.quality_observations ∧
    (c3Stats.rejected_candidates : ℚ) / (c3Stats.quality_observations : ℚ) = 9/10 ∧
    buildThresholdGuidance c3Stats (553/1000) 50 =
      .ok { current_threshold := 553/1000
            suggested_threshold := some (14/25)
            confidence := "medium"
            rationale :=
              "High reject rate observed; consider lowering threshold toward p50." } ∧
    ¬((14 : ℚ)/25 ≤ 553/1000) := by
  refine ⟨by decide, by norm_num [c3Stats], ?_, by norm_num⟩
  unfold buildThresholdGuidance
  rw [if_neg (not_not_intro (by norm_num)), if_neg (by norm_num),
    refreshQualityPercentiles_ok _ (by decide)]
  dsimp only
  rw [if_neg (by decide)]
  norm_num [c3Stats, percentileValue, targetRank, percentileWalk, bucketLower,
    bucketUpper, clampQualityScore, pythonRound2, QUALITY_BUCKET_COUNT]

/-- C3 amended: for stats with at least `min_sample_size` scored
candidates and reject rate exactly 0.9, `build_threshold_guidance`
returns confidence "medium" and suggests the histogram p50 estimate
rounded to two decimals (keeping the current threshold when the histogram
is empty); the suggestion is *not* in general bounded by the current
threshold. -/
theorem c3_amended_high_reject_guidance (stats : ImportStats) (t : ℚ) (mss : ℕ)
    (hlen : stats.quality_buckets.length = QUALITY_BUCKET_COUNT)
    (ht0 : 0 ≤ t) (ht1 : t ≤ 1) (hmss : 0 < mss)
    (hobs : mss ≤ stats.quality_observations)
    (hrate : (stats.rejected_candidates : ℚ) / (stats.quality_observations : ℚ)
      = 9/10) :
    buildThresholdGuidance stats t mss = .ok
      { current_threshold := t
        suggested_threshold := some
          (match percentileValue stats.quality_buckets 50 with
            | some p => pythonRound2 p
            | none => t)
        confidence := "medium"
        rationale :=
          match percentileValue stats.quality_buckets 50 with
          | some _ =>
              "High reject rate observed; consider lowering threshold toward p50."
          | none => "Threshold appears balanced; keep current setting." } := by
  unfold buildThresholdGuidance
  rw [if_neg (not_not_intro ⟨ht0, ht1⟩), if_neg (by omega),
    refreshQualityPercentiles_ok stats hlen]
  dsimp only
  rw [if_neg (not_lt.mpr hobs)]
  have hobs0 : stats.quality_observations ≠ 0 := by omega
  have hrr : (if stats.quality_observations ≠ 0 then
      (stats.rejected_candidates : ℚ) / (stats.quality_observations : ℚ)
      else 0) = 9/10 := by
    rw [if_pos hobs0, hrate]
  rw [hrr]
  rcases hp50 : percentileValue stats.quality_buckets 50 with _ | p
  · rw [if_neg (by simp), if_neg (by norm_num)]
  · rw [if_pos ⟨by norm_num, by simp⟩]
    simp [Option.getD]

/-- Witness for the amended C3 statement at the concrete `c3Stats`. -/
theorem c3_amended_high_reject_guidance_witness :
    buildThresholdGuidance c3Stats (553/1000) 50 = .ok
      { current_threshold := 553/1000
        suggested_threshold := some
          (match percentileValue c3Stats.quality_buckets 50 with
            | some p => pythonRound2 p
            | none => 553/1000)
        confidence := "medium"
        rationale :=
          match percentileValue c3Stats.quality_buckets 50 with
          | some _ =>
              "High reject rate observed; consider lowering threshold toward p50."
          | none => "Threshold appears balanced; keep current setting." } :=
  c3_amended_high_reject_guidance c3Stats (553/1000) 50 (by decide)
    (by norm_num) (by norm_num) (by norm_num) (by decide) (by norm_num [c3Stats])

/-- Regex `\w` (word character), ASCII semantics. -/
def isWordChar (c : Char) : Bool :=
  ('a' ≤ c && c ≤ 'z') || ('A' ≤ c && c ≤ 'Z') || ('0' ≤ c && c ≤ '9') || c = '_'

/-- A `\b` boundary directly after the first `n` characters of `l`, for a
match whose last character is a word character: the next character must
be absent or a non-word character. -/
def boundaryAfterAt (l : Str) (n : ℕ) : Bool :=
  match l.drop n with
  | [] => true
  | c :: _ => !isWordChar c

/-- A `\b` boundary before a match starting with a word character: the
previous character must be absent or a non-word character. -/
def boundaryBefore : Option Char → Bool
  | none => true
  | some c => !isWordChar c

/-- `re.search(r"^(w1|w2|...)\b", l)` for word alternatives that end in a
word character. -/
def startsWithWordFrom (words : List Str) (l : Str) : Bool :=
  words.any fun w => w.isPrefixOf l && boundaryAfterAt l w.length

/-- Helper scan for `re.search(r"\b(w1|w2|...)\b", l)`: try a boundary
match at every position. -/
def containsWordFromAux (words : List Str) (prev : Option Char) : Str → Bool
  | [] => boundaryBefore prev && startsWithWordFrom words []
  | c :: rest =>
      (boundaryBefore prev && startsWithWordFrom words (c :: rest)) ||
      containsWordFromAux words (some c) rest

/-- `re.search(r"\b(w1|w2|...)\b", l)` for alternatives delimited by word
characters. -/
def containsWordFrom (words : List Str) (l : Str) : Bool :=
  containsWordFromAux words none l

/-- `key.count(" ") + 1`. -/
def keyWordCount (key : Str) : ℕ := key.count ' ' + 1

/-- The graduated wordy-key penalty tiers (first matching tier only). -/
def keyWordTierPenalty (key_words : ℕ) : ℚ :=
  if key_words > 10 then -(3/10)
  else if key_words > 6 then -(1/5)
  else if key_words > 4 then -(1/10)
  else 0

/-- `key.rstrip().endswith(("?", "!", ".", ","))`. -/
def endsWithPunct (key : Str) : Bool :=
  match key.reverse.dropWhile isPySpace with
  | [] => false
  | c :: _ => c = '?' || c = '!' || c = '.' || c = ','

/-- Interjection/filler starters. -/
def interjectionWords : List Str :=
  ["ack", "ah", "oh", "hmm", "hrm", "hm", "huh", "hey", "well", "ugh", "wow",
   "yay", "yeh", "yeah", "idk"].map String.toList

/-- `re.search(r"^(ack|ah|oh|hmm|hrm|hm|huh|hey|well|ugh|wow|yay|yeh|yeah|idk)\b", key_lower)`. -/
def startsInterjection (key_lower : Str) : Bool :=
  startsWithWordFrom interjectionWords key_lower

/-- `re.search(r"^(i\s|i'm|i'd|i'll|i've|you're)\b", key_lower)`. The
`i\s` branch ends in whitespace (non-word), so its trailing `\b` demands
a following word character; the other branches end in word characters. -/
def startsFirstPerson (key_lower : Str) : Bool :=
  (match key_lower with
   | 'i' :: c :: d :: _ => isPySpace c && isWordChar d
   | _ => false) ||
  startsWithWordFrom
    (["i'm", "i'd", "i'll", "i've", "you're"].map String.toList) key_lower

/-- Conjunction/preposition/adverb starters. -/
def conjunctionWords : List Str :=
  ["as", "but", "and", "or", "so", "if", "when", "because", "since", "though",
   "although", "while", "after", "before", "until", "from", "like", "maybe",
   "only", "just", "now", "then", "see", "somehow"].map String.toList

/-- `re.search(r"^(as|but|and|...)\b", key_lower)`. -/
def startsConjunction (key_lower : Str) : Bool :=
  startsWithWordFrom conjunctionWords key_lower

/-- `key.count(",")`. -/
def commaCount (key : Str) : ℕ := key.count ','

/-- The graduated comma penalty tiers (first matching tier only). -/
def commaPenalty (comma_count : ℕ) : ℚ :=
  if comma_count ≥ 2 then -(1/4)
  else if comma_count = 1 then -(3/20)
  else 0

/-- `"..." in key`. -/
def hasEllipsis (key : Str) : Bool := hasSubstr "...".toList key

/-- Eye characters of the key emoticon pattern `[oOxX0]`. -/
def isEmoEye (c : Char) : Bool :=
  c = 'o' || c = 'O' || c = 'x' || c = 'X' || c = '0'

/-- Scan for `[oOxX0][._][oOxX0]` anywhere. -/
def tripleEmoticonScan : Str → Bool
  | c1 :: c2 :: c3 :: rest =>
      (isEmoEye c1 && (c2 = '.' || c2 = '_') && isEmoEye c3) ||
      tripleEmoticonScan (c2 :: c3 :: rest)
  | _ => false

/-- `re.search(r"[oOxX0][._][oOxX0]|>_<|\^_\^", key)`. -/
def hasKeyEmoticon (key : Str) : Bool :=
  tripleEmoticonScan key || hasSubstr ">_<".toList key || hasSubstr "^_^".toList key

/-- Conversational phrase fragments. -/
def phraseWords : List Str :=
  ["let me", "let's", "ask you", "tell you", "you know", "i think",
   "i thought", "issue", "problem", "thing", "see that", "working"].map
    String.toList

/-- `re.search(r"\b(let me|let's|...)\b", key_lower)`. -/
def hasConversationalPhrase (key_lower : Str) : Bool :=
  containsWordFrom phraseWords key_lower

/-- Direct-address words. -/
def addressWords : List Str :=
  ["bub", "dude", "man", "mate", "pal", "buddy"].map String.toList

/-- `re.search(r"\b(bub|dude|man|mate|pal|buddy)\b", key_lower)`. -/
def hasAddressWord (key_lower : Str) : Bool :=
  containsWordFrom addressWords key_lower

/-- The `key_has_conversational_signal` flag: the disjunction of every
key heuristic that sets it. -/
def keyConversationalSignal (key : Str) : Bool :=
  let key_lower := pyLower key
  endsWithPunct key || startsInterjection key_lower ||
  startsFirstPerson key_lower || startsConjunction key_lower ||
  decide (1 ≤ commaCount key) || hasEllipsis key || hasKeyEmoticon key ||
  hasConversationalPhrase key_lower || hasAddressWord key_lower

/-- The value-length tier chain (first matching tier only; the final
`10 <= len <= 200` branch is the remaining case). -/
def valueLengthScore (n : ℕ) : ℚ :=
  if n < 3 then -(7/20)
  else if n < 10 then -(1/20)
  else if n > 500 then -(3/10)
  else if n > 200 then -(1/10)
  else if 10 ≤ n ∧ n ≤ 200 then 1/10
  else 0

/-- `re.search(r"<(response|reply|action)>", value.lower())`. -/
def hasReplyMarker (value_lower : Str) : Bool :=
  hasSubstr "<response>".toList value_lower ||
  hasSubstr "<reply>".toList value_lower ||
  hasSubstr "<action>".toList value_lower

/-- `^(yeah|yep|nope|nah|ok|okay|sure|whatever)\b` alternatives. -/
def convOpenerWords : List Str :=
  ["yeah", "yep", "nope", "nah", "ok", "okay", "sure", "whatever"].map
    String.toList

/-- `^(lol|haha|hehe?|rofl|lmao)\b` alternatives (`hehe?` expanded). -/
def convLaughWords : List Str :=
  ["lol", "haha", "hehe", "heh", "rofl", "lmao"].map String.toList

/-- `^(hmm|umm|uh|er|hrm|huh)\b` alternatives. -/
def convFillerWords : List Str :=
  ["hmm", "umm", "uh", "er", "hrm", "huh"].map String.toList

/-- `^(back|here|gone|away|around|busy|afk|brb)\b` alternatives. -/
def convStatusWords : List Str :=
  ["back", "here", "gone", "away", "around", "busy", "afk", "brb"].map
    String.toList

/-- `^(not sure|no idea|dunno|idk|iirc)\b` alternatives. -/
def convUncertainWords : List Str :=
  ["not sure", "no idea", "dunno", "idk", "iirc"].map String.toList

/-- `^(shy|afraid|sorry|glad|happy|sad)\s+to\b` head alternatives. -/
def emotionalWords : List Str :=
  ["shy", "afraid", "sorry", "glad", "happy", "sad"].map String.toList

/-- `^(really|actually|basically|literally)\s+\w+ing\b` head alternatives. -/
def intensifierWords : List Str :=
  ["really", "actually", "basically", "literally"].map String.toList

/-- `\s+to\b`: one or more whitespace characters, then `to` at a word
boundary. -/
def spacesThenTo : Str → Bool
  | [] => false
  | c :: rest =>
      isPySpace c &&
        (("to".toList.isPrefixOf rest && boundaryAfterAt rest 2) ||
          spacesThenTo rest)

/-- `\w+ing\b` matches inside a maximal word-character run exactly when
the run has length at least 4 and ends in `ing`. -/
def gerundRun (l : Str) : Bool :=
  let run := l.takeWhile isWordChar
  decide (4 ≤ run.length) && "ing".toList.isSuffixOf run

/-- `\s+\w+ing\b`: one or more whitespace characters, then a word run
ending in `ing`. -/
def spacesThenGerund : Str → Bool
  | [] => false
  | c :: rest => isPySpace c && (gerundRun rest || spacesThenGerund rest)

/-- `re.search(r"^(really|actually|basically|literally)\s+\w+ing\b", value_lower)`. -/
def matchesIntensifierGerund (value_lower : Str) : Bool :=
  intensifierWords.any fun w =>
    w.isPrefixOf value_lower && spacesThenGerund (value_lower.drop w.length)

/-- `re.search(r"^(shy|afraid|sorry|glad|happy|sad)\s+to\b", value_lower)`. -/
def matchesEmotionalTo (value_lower : Str) : Bool :=
  emotionalWords.any fun w =>
    w.isPrefixOf value_lower && spacesThenTo (value_lower.drop w.length)

/-- Scan for `\b(i'm|i am)\s+\w+ing\b` at every position. -/
def firstPersonActionAux (prev : Option Char) : Str → Bool
  | [] => false
  | c :: rest =>
      (boundaryBefore prev &&
        (("i'm".toList.isPrefixOf (c :: rest) &&
            spacesThenGerund ((c :: rest).drop 3)) ||
         ("i am".toList.isPrefixOf (c :: rest) &&
            spacesThenGerund ((c :: rest).drop 4)))) ||
      firstPersonActionAux (some c) rest

/-- `re.search(r"\b(i'm|i am)\s+\w+ing\b", value_lower)`. -/
def matchesFirstPersonAction (value_lower : Str) : Bool :=
  firstPersonActionAux none value_lower

/-- The `conversational_patterns` loop: the eight patterns are tried in
order and each subtracts the same weight once, so one match suffices. -/
def matchesConversationalPattern (value_lower : Str) : Bool :=
  startsWithWordFrom convOpenerWords value_lower ||
  startsWithWordFrom convLaughWords value_lower ||
  startsWithWordFrom convFillerWords value_lower ||
  startsWithWordFrom convStatusWords value_lower ||
  startsWithWordFrom convUncertainWords value_lower ||
  matchesEmotionalTo value_lower ||
  matchesIntensifierGerund value_lower ||
  matchesFirstPersonAction value_lower

/-- `"http://" in value or "https://" in value`. -/
def hasUrl (value : Str) : Bool :=
  hasSubstr "http://".toList value || hasSubstr "https://".toList value

/-- Mouth characters of the value emoticon pattern `[)(DPpO/\\|]`. -/
def isEmoMouth (c : Char) : Bool :=
  c = ')' || c = '(' || c = 'D' || c = 'P' || c = 'p' || c = 'O' ||
  c = '/' || c = '\\' || c = '|'

/-- `re.search(r"[:;]['\-]?[)(DPpO/\\|]", value)`. -/
def hasValueEmoticon : Str → Bool
  | c1 :: c2 :: rest =>
      ((c1 = ':' || c1 = ';') &&
        (isEmoMouth c2 ||
          ((c2 = '\'' || c2 = '-') &&
            (match rest with
             | c3 :: _ => isEmoMouth c3
             | [] => false)))) ||
      hasValueEmoticon (c2 :: rest)
  | _ => false

/-- `sum(1 for c in value if not c.isalnum() and c not in " .,!?-")`
(`isalnum` taken with its ASCII semantics). -/
def specialCharCount (value : Str) : ℕ :=
  value.countP fun c =>
    !c.isAlphanum &&
      !(c = ' ' || c = '.' || c = ',' || c = '!' || c = '?' || c = '-')

/-- `special_char_ratio > 0.3` with
`special_char_ratio = special_chars / max(len(value), 1)`. -/
def specialRatioHigh (value : Str) : Prop :=
  (specialCharCount value : ℚ) / ((max value.length 1 : ℕ) : ℚ) > 3/10

instance (value : Str) : Decidable (specialRatioHigh value) := by
  unfold specialRatioHigh
  infer_instance

/-- Source: `calculate_quality_score`. The sequential score updates of
the Python function are written as one sum (addition commutes and each
heuristic is independent); the final line is the clamp to `[0, 1]`. -/
def calculateQualityScore (key value : Str) : ℚ :=
  let key_lower := pyLower key
  let value_lower := pyLower value
  let key_words := keyWordCount key
  clampQualityScore (1/2
    + keyWordTierPenalty key_words
    + (if endsWithPunct key then -(1/5) else 0)
    + (if startsInterjection key_lower then -(1/5) else 0)
    + (if startsFirstPerson key_lower then -(3/20) else 0)
    + (if startsConjunction key_lower then -(3/20) else 0)
    + commaPenalty (commaCount key)
    + (if hasEllipsis key then -(3/20) else 0)
    + (if hasKeyEmoticon key then -(1/5) else 0)
    + (if hasConversationalPhrase key_lower then -(1/5) else 0)
    + (if hasAddressWord key_lower then -(1/5) else 0)
    + (if key_words ≤ 2 ∧ keyConversationalSignal key = false then 1/10 else 0)
    + valueLengthScore value.length
    + (if hasReplyMarker value_lower then 3/10 else 0)
    + (if matchesConversationalPattern value_lower then -(3/10) else 0)
    + (if hasUrl value then 1/5 else 0)
    + (if hasValueEmoticon value then -(1/10) else 0)
    + (if specialRatioHigh value then -(1/5) else 0))

/-- C5: for every key string and every value string, the quality score
lies in the closed interval `[0, 1]` (the scorer ends in an explicit
clamp). -/
theorem c5_score_in_unit_interval (key value : Str) :
    0 ≤ calculateQualityScore key value ∧ calculateQualityScore key value ≤ 1 := by
  unfold calculateQualityScore
  exact ⟨clampQualityScore_nonneg _, clampQualityScore_le_one _⟩

/-- The key of the C4 counterexample. -/
def c4Key : Str := "python".toList

/-- A 195-character value without a URL: length tier `10..200` (+0.1). -/
def c4PlainValue : Str := List.replicate 195 'a'

/-- The same value with `https://` inserted at the end: length 203 flips
the length tier to `>200` (-0.1) and `://` matches the emoticon regex
(-0.1), overwhelming the +0.2 URL bonus. -/
def c4UrlValue : Str := c4PlainValue ++ "https://".toList

theorem c4_plain_score : calculateQualityScore c4Key c4PlainValue = 7/10 := by
  norm_num [calculateQualityScore, clampQualityScore, keyWordTierPenalty,
    commaPenalty, min_def, max_def,
    show keyWordCount c4Key = 1 from by decide,
    show endsWithPunct c4Key = false from by decide,
    show startsInterjection (pyLower c4Key) = false from by decide,
    show startsFirstPerson (pyLower c4Key) = false from by decide,
    show startsConjunction (pyLower c4Key) = false from by decide,
    show commaCount c4Key = 0 from by decide,
    show hasEllipsis c4Key = false from by decide,
    show hasKeyEmoticon c4Key = false from by decide,
    show hasConversationalPhrase (pyLower c4Key) = false from by decide,
    show hasAddressWord (pyLower c4Key) = false from by decide,
    show keyConversationalSignal c4Key = false from by decide,
    show valueLengthScore c4PlainValue.length = 1/10 from by
      rw [show c4PlainValue.length = 195 from by decide]
      norm_num [valueLengthScore],
    show hasReplyMarker (pyLower c4PlainValue) = false from by decide,
    show matchesConversationalPattern (pyLower c4PlainValue) = false from by decide,
    show hasUrl c4PlainValue = false from by decide,
    show hasValueEmoticon c4PlainValue = false from by decide,
    show ¬ specialRatioHigh c4PlainValue from by
      rw [specialRatioHigh, show specialCharCount c4PlainValue = 0 from by decide,
        show c4PlainValue.length = 195 from by decide]
      norm_num]

theorem c4_url_score : calculateQualityScore c4Key c4UrlValue = 3/5 := by
  norm_num [calculateQualityScore, clampQualityScore, keyWordTierPenalty,
    commaPenalty, min_def, max_def,
    show keyWordCount c4Key = 1 from by decide,
    show endsWithPunct c4Key = false from by decide,
    show startsInterjection (pyLower c4Key) = false from by decide,
    show startsFirstPerson (pyLower c4Key) = false from by decide,
    show startsConjunction (pyLower c4Key) = false from by decide,
    show commaCount c4Key = 0 from by decide,
    show hasEllipsis c4Key = false from by decide,
    show hasKeyEmoticon c4Key = false from by decide,
    show hasConversationalPhrase (pyLower c4Key) = false from by decide,
    show hasAddressWord (pyLower c4Key) = false from by decide,
    show keyConversationalSignal c4Key = false from by decide,
    show valueLengthScore c4UrlValue.length = -(1/10) from by
      rw [show c4UrlValue.length = 203 from by decide]
      norm_num [valueLengthScore],
    show hasReplyMarker (pyLower c4UrlValue) = false from by decide,
    show matchesConversationalPattern (pyLower c4UrlValue) = false from by decide,
    show hasUrl c4UrlValue = true from by decide,
    show hasValueEmoticon c4UrlValue = true from by decide,
    show ¬ specialRatioHigh c4UrlValue from by
      rw [specialRatioHigh, show specialCharCount c4UrlValue = 3 from by decide,
        show c4UrlValue.length = 203 from by decide]
      norm_num]

/-- C4 counterexample: `c4UrlValue` is `c4PlainValue` with `https://`
inserted (at the end) and is otherwise identical; it contains `https://`
while the plain value does not — yet it scores strictly *lower* (0.6
versus 0.7), because the insertion flips the length tier (195 → 203
characters crosses 200) and introduces an emoticon-regex match (`:/`). -/
theorem c4_counterexample_url_not_higher :
    hasSubstr "https://".toList c4PlainValue = false ∧
    c4UrlValue = c4PlainValue ++ "https://".toList ∧
    calculateQualityScore c4Key c4UrlValue <
      calculateQualityScore c4Key c4PlainValue := by
  refine ⟨by decide, rfl, ?_⟩
  rw [c4_plain_score, c4_url_score]
  norm_num

theorem clampQualityScore_lt_of (a b : ℚ) (hab : a + 1/5 ≤ b)
    (h1 : clampQualityScore a < 1) (h2 : 0 < clampQualityScore b) :
    clampQualityScore a < clampQualityScore b := by
  unfold clampQualityScore at h1 h2 ⊢
  rcases le_total a 0 with ha | ha
  · have hz : max 0 (min 1 a) = 0 :=
      max_eq_left (le_trans (min_le_right 1 a) ha)
    rw [hz]
    exact h2
  · have hmin : 0 ≤ min 1 a := le_min (by norm_num) ha
    rw [max_eq_right hmin] at h1 ⊢
    have halt1 : a < 1 := by
      by_contra hge
      push_neg at hge
      rw [min_eq_left hge] at h1
      exact lt_irrefl 1 h1
    rw [min_eq_right halt1.le]
    have h3 : a < min 1 (a + 1/5) := lt_min (by linarith) (by linarith)
    have h4 : min 1 (a + 1/5) ≤ min 1 b := min_le_min le_rfl hab
    exact lt_of_lt_of_le h3 (le_trans h4 (le_max_right 0 _))

/-- C4 amended: a value containing `https://` earns the +0.2 URL bonus,
so it scores at least as high as an otherwise-identical value without it
*provided* the two values agree on every other value heuristic (length
tier, reply marker, conversational pattern, emoticon, special-character
density); the inequality is strict when neither clamp bound interferes.
Without those provisos the claim fails (see the counterexample): the
inserted `https://` itself changes the length tier and matches the
emoticon regex. -/
theorem c4_amended_url_bonus (key v v2 : Str)
    (hnu : hasUrl v = false) (hu : hasUrl v2 = true)
    (hlen : valueLengthScore v.length = valueLengthScore v2.length)
    (hreply : hasReplyMarker (pyLower v) = hasReplyMarker (pyLower v2))
    (hconv : matchesConversationalPattern (pyLower v) =
      matchesConversationalPattern (pyLower v2))
    (hemo : hasValueEmoticon v = hasValueEmoticon v2)
    (hspec : specialRatioHigh v ↔ specialRatioHigh v2) :
    calculateQualityScore key v ≤ calculateQualityScore key v2 ∧
    (calculateQualityScore key v < 1 → 0 < calculateQualityScore key v2 →
      calculateQualityScore key v < calculateQualityScore key v2) := by
  simp only [calculateQualityScore]
  rw [hlen, hreply, hconv, hemo, hnu, hu]
  simp only [hspec]
  constructor
  · apply clampQualityScore_mono
    norm_num
  · intro h1 h2
    apply clampQualityScore_lt_of _ _ _ h1 h2
    norm_num
    linarith

/-- A 22-character value with an emoticon and no URL. -/
def c4WitnessPlain : Str := List.replicate 20 'a' ++ ":/".toList

/-- The same value with `https://` inserted at the front; every other
value heuristic is unchanged. -/
def c4WitnessUrl : Str := "https://".toList ++ c4WitnessPlain

/-- Witness for the amended C4 statement. -/
theorem c4_amended_url_bonus_witness :
    calculateQualityScore c4Key c4WitnessPlain ≤
      calculateQualityScore c4Key c4WitnessUrl :=
  (c4_amended_url_bonus c4Key c4WitnessPlain c4WitnessUrl
    (by decide) (by decide)
    (by
      rw [show c4WitnessPlain.length = 22 from by decide,
        show c4WitnessUrl.length = 30 from by decide]
      norm_num [valueLengthScore])
    (by decide) (by decide) (by decide)
    (iff_of_false
      (by
        rw [specialRatioHigh,
          show specialCharCount c4WitnessPlain = 2 from by decide,
          show c4WitnessPlain.length = 22 from by decide]
        norm_num)
      (by
        rw [specialRatioHigh,
          show specialCharCount c4WitnessUrl = 5 from by decide,
          show c4WitnessUrl.length = 30 from by decide]
        norm_num))).1

/-- Helper for Python `value.split()`: accumulate the current word
(reversed) while scanning. -/
def pySplitWsGo (curr : Str) : Str → List Str
  | [] => if curr.isEmpty then [] else [curr.reverse]
  | c :: rest =>
      if isPySpace c then
        if curr.isEmpty then pySplitWsGo [] rest
        else curr.reverse :: pySplitWsGo [] rest
      else pySplitWsGo (c :: curr) rest

/-- Python `value.split()`: split on whitespace runs, dropping empties. -/
def pySplitWs (l : Str) : List Str := pySplitWsGo [] l

/-- `" ".join(value.split())`. -/
def compactWhitespace (value : Str) : Str := List.intercalate [' '] (pySplitWs value)

/-- Source: `build_quality_sample`: collapse whitespace, truncate the
preview, clamp the score. -/
def buildQualitySample (source_file : Str) (line_number : ℕ) (key value : Str)
    (quality_score : ℚ)
    (preview_chars : ℕ := 96) : QualitySample :=
  let compact_value := compactWhitespace value
  let value_preview :=
    if preview_chars < compact_value.length then
      compact_value.take preview_chars ++ "...".toList
    else compact_value
  { source_file := source_file, line_number := line_number, key := key,
    value_preview := value_preview, score := clampQualityScore quality_score }

/-- Source: `reservoir_sample_insert` (algorithm R). `randrange(n)` is
modelled as the next RNG stream value mod `n`; Python raises on `n = 0`,
which the import loop never reaches (the population counter is at least
`cap + 1` when the reservoir is full). -/
def reservoirSampleInsert (reservoir : List QualitySample) (sample : QualitySample)
    (population_seen : ℕ) (sample_cap : ℕ) (rngStream : ℕ → ℕ) (rngIdx : ℕ) :
    List QualitySample × ℕ :=
  if sample_cap = 0 then (reservoir, rngIdx)
  else if reservoir.length < sample_cap then (reservoir ++ [sample], rngIdx)
  else
    let replacement_index := rngStream rngIdx % population_seen
    (if replacement_index < sample_cap then reservoir.set replacement_index sample
     else reservoir,
     rngIdx + 1)

/-- Source: `record_quality_sample`: pick the reservoir and the
population counter of the accepted or rejected stream, then insert. -/
def recordQualitySample (stats : ImportStats) (sample : QualitySample)
    (accepted : Bool) (sample_cap : ℕ) (rngStream : ℕ → ℕ) (rngIdx : ℕ) :
    ImportStats × ℕ :=
  if accepted then
    let inserted := reservoirSampleInsert stats.accepted_samples sample
      stats.accepted_candidates sample_cap rngStream rngIdx
    ({ stats with accepted_samples := inserted.1 }, inserted.2)
  else
    let inserted := reservoirSampleInsert stats.rejected_samples sample
      stats.rejected_candidates sample_cap rngStream rngIdx
    ({ stats with rejected_samples := inserted.1 }, inserted.2)

/-- The telemetry step of `import_factoid_file` for one parsed line:
`update_quality_aggregates` *then* `record_quality_sample` (so the
population counter the reservoir sees already includes the current
sample). -/
def telemetryStepCode (stats : ImportStats) (quality_score : ℚ) (accepted : Bool)
    (sample : QualitySample) (sample_cap : ℕ) (rngStream : ℕ → ℕ) (rngIdx : ℕ) :
    ImportStats × ℕ :=
  recordQualitySample (updateQualityAggregates stats quality_score accepted)
    sample accepted sample_cap rngStream rngIdx

/-- Modelled from the spec (§4.4): the same telemetry step, but the
reservoir insert receives the stream's population counter *before* the
current sample is counted, as the claim states. -/
def telemetryStepSpecBefore (stats : ImportStats) (quality_score : ℚ)
    (accepted : Bool) (sample : QualitySample) (sample_cap : ℕ)
    (rngStream : ℕ → ℕ) (rngIdx : ℕ) : ImportStats × ℕ :=
  let stats2 := updateQualityAggregates stats quality_score accepted
  if accepted then
    let inserted := reservoirSampleInsert stats2.accepted_samples sample
      stats.accepted_candidates sample_cap rngStream rngIdx
    ({ stats2 with accepted_samples := inserted.1 }, inserted.2)
  else
    let inserted := reservoirSampleInsert stats2.rejected_samples sample
      stats.rejected_candidates sample_cap rngStream rngIdx
    ({ stats2 with rejected_samples := inserted.1 }, inserted.2)

/-- Source: `should_emit_quality_diagnostics`. -/
def shouldEmitQualityDiagnostics (stats : ImportStats) (parsed_since_last : ℕ)
    (elapsed_seconds : ℚ) (parsed_interval : ℕ) (seconds_interval : ℚ) : Bool :=
  if stats.parsed = 0 || parsed_since_last = 0 then false
  else if parsed_interval ≤ parsed_since_last then true
  else decide (seconds_interval ≤ elapsed_seconds)

/-- Pair up consecutive occurrences of a delimiter: the segments between
delimiters, rebuilt with each complete pair replaced by the wrapper and a
final unpaired delimiter left in place. This is
`re.sub(d + "([^d]*?)" + d, wrap + r"\1" + wrap, text)` for a
single-character delimiter `d`. -/
def joinPairs (d : Char) (wrap : Str) : List Str → Str
  | [] => []
  | [a] => a
  | [a, b] => a ++ [d] ++ b
  | a :: b :: rest => a ++ wrap ++ b ++ wrap ++ joinPairs d wrap rest

/-- One formatting-pair substitution of `clean_irc_formatting`. -/
def pairSub (d : Char) (wrap : Str) (l : Str) : Str :=
  joinPairs d wrap (l.splitOn d)

theorem length_dropWhile_le_self (p : Char → Bool) (l : List Char) :
    (l.dropWhile p).length ≤ l.length := by
  induction l with
  | nil => simp
  | cons c t ih =>
      by_cases h : p c <;> simp [List.dropWhile, h] <;> omega

/-- `re.sub(r"\x03\d+(?:,\d+)?", "", text)`: delete a color control byte
followed by digits and an optional comma-digit group; a bare `\x03`
stays (it is removed later by the control strip). -/
def colorSub : Str → Str
  | [] => []
  | c :: rest =>
      if c = '\x03' then
        if (rest.takeWhile Char.isDigit).isEmpty then c :: colorSub rest
        else
          let rest2 := rest.dropWhile Char.isDigit
          if rest2.head? = some ',' then
            if (rest2.tail.takeWhile Char.isDigit).isEmpty then colorSub rest2
            else colorSub (rest2.tail.dropWhile Char.isDigit)
          else colorSub rest2
      else c :: colorSub rest
termination_by l => l.length
decreasing_by
  all_goals simp only [List.length_cons]
  all_goals
    (have h1 := length_dropWhile_le_self Char.isDigit rest
     have h2 : (rest.dropWhile Char.isDigit).tail.length ≤
         (rest.dropWhile Char.isDigit).length := by
       cases rest.dropWhile Char.isDigit <;> simp
     have h3 := length_dropWhile_le_self Char.isDigit
       (rest.dropWhile Char.isDigit).tail
     omega)

/-- A control character removed by the final strip of
`clean_irc_formatting`: `0x00-0x08`, `0x0B-0x0C`, `0x0E-0x1F`, `0x7F`. -/
def isStrippedCtrl (c : Char) : Bool :=
  c ≤ '\x08' || ('\x0b' ≤ c && c ≤ '\x0c') || ('\x0e' ≤ c && c ≤ '\x1f') ||
  c = '\x7f'

/-- Source: `clean_irc_formatting`: bold/italic/underline pair
substitutions, color-code deletion, control strip (in that order — the
strip must come last), final whitespace trim. -/
def cleanIrcFormatting (text : Str) : Str :=
  let t1 := pairSub '\x02' "**".toList text
  let t2 := pairSub '\x1d' "*".toList t1
  let t3 := pairSub '\x1f' "__".toList t2
  let t4 := colorSub t3
  pyStripWs (t4.filter fun c => !isStrippedCtrl c)

/-- Source: `FactoidType` (IS / ARE). -/
inductive FactoidType where
  | IS : FactoidType
  | ARE : FactoidType
deriving DecidableEq, Repr

/-- `Factoid.__post_init__` validation: key and value must be non-empty
and not whitespace-only (raises `ValueError` otherwise, which the import
loop counts as an error). -/
def factoidValid (key value : Str) : Bool :=
  !(key.isEmpty || (pyStripWs key).isEmpty) &&
  !(value.isEmpty || (pyStripWs value).isEmpty)

/-- `Factoid.__post_init__` key normalization: `key.strip().lower()`. -/
def factoidKeyNorm (key : Str) : Str := pyLower (pyStripWs key)

/-- The store is modelled by its `FactoidStore.create` contract: the set
of (normalized key, type) pairs already present; `create` raises
`FactoidExistsError` when the pair is present, else inserts. -/
def storeHas (store : List (Str × FactoidType)) (key : Str) (t : FactoidType) :
    Bool :=
  store.any fun e => e.1 = key && e.2 = t

/-- The per-file configuration of `import_factoid_file`: file name and
factoid type, threshold, reservoir cap, injected RNG and monotonic clock
(as streams), and the diagnostic cadences. -/
structure ImportConfig where
  fileName : Str
  factoidType : FactoidType
  quality_threshold : ℚ
  sample_cap : ℕ
  rngStream : ℕ → ℕ
  clockStream : ℕ → ℚ
  diagnostic_parsed_interval : ℕ
  diagnostic_seconds_interval : ℚ

/-- The mutable state threaded through the read loop: the stats
accumulator, the store contents, the RNG and clock cursors, and the
local diagnostic-cadence markers. -/
structure RunState where
  stats : ImportStats
  store : List (Str × FactoidType)
  rngIdx : ℕ
  clockIdx : ℕ
  lastDiagParsed : ℕ
  lastDiagMono : ℚ

/-- One iteration of the read loop of `import_factoid_file`: count the
line, skip blanks, parse, clean, score, update telemetry, record the
reservoir sample, check the diagnostic cadence, then either skip a
low-quality record or attempt persistence (imported / duplicate /
errored). -/
def processLine (cfg : ImportConfig) (st : RunState) (line_num : ℕ)
    (rawLine : Str) : RunState :=
  let stats0 := { st.stats with total_lines := st.stats.total_lines + 1 }
  let line := pyStrip importWsChars rawLine
  if line.isEmpty then { st with stats := stats0 }
  else
    match parseFactoidLine line with
    | none =>
        { st with stats :=
            { stats0 with skipped_invalid := stats0.skipped_invalid + 1 } }
    | some kv =>
        let key := cleanIrcFormatting kv.1
        let value := cleanIrcFormatting kv.2
        let stats1 := { stats0 with parsed := stats0.parsed + 1 }
        let quality_score := calculateQualityScore key value
        let is_accepted : Bool := decide (cfg.quality_threshold ≤ quality_score)
        let stats2 := updateQualityAggregates stats1 quality_score is_accepted
        let sample := buildQualitySample cfg.fileName line_num key value
          quality_score
        let recorded := recordQualitySample stats2 sample is_accepted
          cfg.sample_cap cfg.rngStream st.rngIdx
        let stats3 := recorded.1
        let rngIdx2 := recorded.2
        let now_mono := cfg.clockStream st.clockIdx
        let clockIdx2 := st.clockIdx + 1
        let parsed_since_last := stats3.parsed - st.lastDiagParsed
        let elapsed_seconds := now_mono - st.lastDiagMono
        let emit := shouldEmitQualityDiagnostics stats3 parsed_since_last
          elapsed_seconds cfg.diagnostic_parsed_interval
          cfg.diagnostic_seconds_interval
        let lastDiagParsed2 := if emit then stats3.parsed else st.lastDiagParsed
        let lastDiagMono2 := if emit then now_mono else st.lastDiagMono
        if !is_accepted then
          { stats := { stats3 with
              skipped_low_quality := stats3.skipped_low_quality + 1 },
            store := st.store, rngIdx := rngIdx2, clockIdx := clockIdx2,
            lastDiagParsed := lastDiagParsed2, lastDiagMono := lastDiagMono2 }
        else if !factoidValid key value then
          { stats := { stats3 with errors := stats3.errors + 1 },
            store := st.store, rngIdx := rngIdx2, clockIdx := clockIdx2,
            lastDiagParsed := lastDiagParsed2, lastDiagMono := lastDiagMono2 }
        else if storeHas st.store (factoidKeyNorm key) cfg.factoidType then
          { stats := { stats3 with duplicates := stats3.duplicates + 1 },
            store := st.store, rngIdx := rngIdx2, clockIdx := clockIdx2,
            lastDiagParsed := lastDiagParsed2, lastDiagMono := lastDiagMono2 }
        else
          { stats := { stats3 with imported := stats3.imported + 1 },
            store := (factoidKeyNorm key, cfg.factoidType) :: st.store,
            rngIdx := rngIdx2, clockIdx := clockIdx2,
            lastDiagParsed := lastDiagParsed2, lastDiagMono := lastDiagMono2 }

/-- The read loop over the lines of one file (`enumerate(f, 1)`). -/
def processLines (cfg : ImportConfig) : RunState → ℕ → List Str → RunState
  | st, _, [] => st
  | st, n, line :: rest => processLines cfg (processLine cfg st n line) (n + 1) rest

/-- Source: `import_factoid_file`. The file is modelled by whether it
exists, the list of lines successfully read, and whether reading then
fails mid-file (`readFails`); validation errors are `Except.error`.
(`sample_cap : ℕ` already satisfies the non-negativity that
`resolve_legacy_import_sample_cap` checks.) -/
def importFactoidFile (cfg : ImportConfig) (fileExists : Bool) (lines : List Str)
    (readFails : Bool) (stats : ImportStats) (store : List (Str × FactoidType))
    (rngIdx clockIdx : ℕ) :
    Except String (ImportStats × List (Str × FactoidType) × ℕ × ℕ) :=
  if ¬(0 ≤ cfg.quality_threshold ∧ cfg.quality_threshold ≤ 1) then
    .error "quality-threshold must be between 0.0 and 1.0"
  else if cfg.diagnostic_parsed_interval = 0 then
    .error "diagnostic_parsed_interval must be > 0"
  else if ¬(0 < cfg.diagnostic_seconds_interval) then
    .error "diagnostic_seconds_interval must be > 0"
  else
    let last_diagnostic_mono := cfg.clockStream clockIdx
    let clockIdx1 := clockIdx + 1
    if ¬fileExists then .ok (stats, store, rngIdx, clockIdx1)
    else
      let stF := processLines cfg
        ⟨stats, store, rngIdx, clockIdx1, stats.parsed, last_diagnostic_mono⟩ 1 lines
      let statsE :=
        if readFails then { stF.stats with errors := stF.stats.errors + 1 }
        else stF.stats
      match refreshQualityPercentiles statsE with
      | .error e => .error e
      | .ok statsR => .ok (statsR, stF.store, stF.rngIdx, stF.clockIdx)

/-- One file of a corpus import: its configuration and its modelled
read behaviour. -/
structure FileJob where
  cfg : ImportConfig
  fileExists : Bool
  lines : List Str
  readFails : Bool

/-- `import_legacy_data`-style sequencing: several files processed one
after another, sharing one `ImportStats`, store, RNG and clock. -/
def importMany :
    List FileJob → ImportStats × List (Str × FactoidType) × ℕ × ℕ →
    Except String (ImportStats × List (Str × FactoidType) × ℕ × ℕ)
  | [], acc => .ok acc
  | job :: rest, acc =>
      match importFactoidFile job.cfg job.fileExists job.lines job.readFails
        acc.1 acc.2.1 acc.2.2.1 acc.2.2.2 with
      | .error e => .error e
      | .ok acc2 => importMany rest acc2

theorem updateQualityAggregates_samples (stats : ImportStats) (q : ℚ) (a : Bool) :
    (updateQualityAggregates stats q a).accepted_samples = stats.accepted_samples ∧
    (updateQualityAggregates stats q a).rejected_samples = stats.rejected_samples ∧
    (updateQualityAggregates stats q true).accepted_candidates =
      stats.accepted_candidates + 1 ∧
    (updateQualityAggregates stats q false).rejected_candidates =
      stats.rejected_candidates + 1 := by
  unfold updateQualityAggregates
  simp

theorem recordQualitySample_accepted (stats : ImportStats) (s : QualitySample)
    (cap : ℕ) (rng : ℕ → ℕ) (idx : ℕ) :
    recordQualitySample stats s true cap rng idx =
      ({ stats with accepted_samples :=
          (reservoirSampleInsert stats.accepted_samples s stats.accepted_candidates
            cap rng idx).1 },
       (reservoirSampleInsert stats.accepted_samples s stats.accepted_candidates
         cap rng idx).2) := by
  simp [recordQualitySample]

theorem recordQualitySample_rejected (stats : ImportStats) (s : QualitySample)
    (cap : ℕ) (rng : ℕ → ℕ) (idx : ℕ) :
    recordQualitySample stats s false cap rng idx =
      ({ stats with rejected_samples :=
          (reservoirSampleInsert stats.rejected_samples s stats.rejected_candidates
            cap rng idx).1 },
       (reservoirSampleInsert stats.rejected_samples s stats.rejected_candidates
         cap rng idx).2) := by
  simp [recordQualitySample]

theorem reservoirSampleInsert_notfull (res : List QualitySample)
    (s : QualitySample) (n cap : ℕ) (rng : ℕ → ℕ) (idx : ℕ) (hcap : cap ≠ 0)
    (hlt : res.length < cap) :
    reservoirSampleInsert res s n cap rng idx = (res ++ [s], idx) := by
  unfold reservoirSampleInsert
  rw [if_neg hcap, if_pos hlt]

theorem reservoirSampleInsert_full (res : List QualitySample)
    (s : QualitySample) (n cap : ℕ) (rng : ℕ → ℕ) (idx : ℕ) (hcap : cap ≠ 0)
    (hge : ¬ res.length < cap) :
    reservoirSampleInsert res s n cap rng idx =
      (if rng idx % n < cap then res.set (rng idx % n) s else res, idx + 1) := by
  unfold reservoirSampleInsert
  rw [if_neg hcap, if_neg hge]

/-- A previously recorded sample sitting in a full size-1 reservoir. -/
def c2Sample1 : QualitySample :=
  { source_file := "facts.txt".toList, line_number := 1, key := "alpha".toList,
    value_preview := "one".toList, score := 1 }

/-- The sample of the current line. -/
def c2Sample2 : QualitySample :=
  { source_file := "facts.txt".toList, line_number := 2, key := "beta".toList,
    value_preview := "two".toList, score := 1 }

/-- Stats after one accepted line with sample cap 1: the accepted
reservoir is full. -/
def c2Stats0 : ImportStats :=
  { initialImportStats with
    total_lines := 1
    parsed := 1
    quality_observations := 1
    accepted_candidates := 1
    imported := 1
    quality_score_sum := 1
    quality_min := some 1
    quality_max := some 1
    quality_buckets := [0, 0, 0, 0, 0, 0, 0, 0, 0, 1]
    accepted_samples := [c2Sample1] }

/-- C2 counterexample: in the telemetry step of `import_factoid_file`,
`update_quality_aggregates` runs before `record_quality_sample`, so the
population counter given to `randrange` already counts the current
sample. At `c2Stats0` (full reservoir, cap 1, next RNG value 1) the code
draws `randrange(2) = 1` and keeps the old sample, while the claim's
"counter before this sample is counted" semantics would draw
`randrange(1) = 0` and replace it: the two disagree, refuting the claim
as stated. -/
theorem c2_counterexample_population_before :
    c2Stats0.accepted_samples.length = 1 ∧
    ((telemetryStepCode c2Stats0 1 true c2Sample2 1
        (fun _ => 1) 0).1.accepted_samples.map QualitySample.line_number = [1]) ∧
    ((telemetryStepSpecBefore c2Stats0 1 true c2Sample2 1
        (fun _ => 1) 0).1.accepted_samples.map QualitySample.line_number = [2]) := by
  refine ⟨by decide, by decide, by decide⟩

/-- C2 amended: in every reservoir-insertion step of the import loop the
population counter passed to `randrange` is the stream's counter *after*
the current sample has been counted (the sample's 1-based index in its
stream, as in standard algorithm R); with the reservoir not yet full the
sample is appended; otherwise the sample replaces `reservoir[j]` exactly
when `j = randrange(n)` satisfies `j < cap`. -/
theorem c2_amended_population_counted_after (stats : ImportStats)
    (quality_score : ℚ) (sample : QualitySample) (cap : ℕ) (rng : ℕ → ℕ)
    (idx : ℕ) (hcap : 0 < cap) :
    ((stats.accepted_samples.length < cap →
      (telemetryStepCode stats quality_score true sample cap rng
          idx).1.accepted_samples = stats.accepted_samples ++ [sample] ∧
        (telemetryStepCode stats quality_score true sample cap rng idx).2 = idx) ∧
     (cap ≤ stats.accepted_samples.length →
      (telemetryStepCode stats quality_score true sample cap rng
          idx).1.accepted_samples =
        (if rng idx % (stats.accepted_candidates + 1) < cap then
          stats.accepted_samples.set
            (rng idx % (stats.accepted_candidates + 1)) sample
        else stats.accepted_samples) ∧
        (telemetryStepCode stats quality_score true sample cap rng idx).2 =
          idx + 1)) ∧
    ((stats.rejected_samples.length < cap →
      (telemetryStepCode stats quality_score false sample cap rng
          idx).1.rejected_samples = stats.rejected_samples ++ [sample] ∧
        (telemetryStepCode stats quality_score false sample cap rng idx).2 = idx) ∧
     (cap ≤ stats.rejected_samples.length →
      (telemetryStepCode stats quality_score false sample cap rng
          idx).1.rejected_samples =
        (if rng idx % (stats.rejected_candidates + 1) < cap then
          stats.rejected_samples.set
            (rng idx % (stats.rejected_candidates + 1)) sample
        else stats.rejected_samples) ∧
        (telemetryStepCode stats quality_score false sample cap rng idx).2 =
          idx + 1)) := by
  obtain ⟨hs1, hs2, hc1, hc2⟩ :=
    updateQualityAggregates_samples stats quality_score true
  obtain ⟨hs1f, hs2f, hc1f, hc2f⟩ :=
    updateQualityAggregates_samples stats quality_score false
  constructor
  · unfold telemetryStepCode
    rw [recordQualitySample_accepted, hs1, hc1]
    constructor
    · intro hlt
      rw [reservoirSampleInsert_notfull _ _ _ _ _ _ (by omega) hlt]
      exact ⟨rfl, rfl⟩
    · intro hge
      rw [reservoirSampleInsert_full _ _ _ _ _ _ (by omega) (not_lt.mpr hge)]
      exact ⟨rfl, rfl⟩
  · unfold telemetryStepCode
    rw [recordQualitySample_rejected, hs2f, hc2f]
    constructor
    · intro hlt
      rw [reservoirSampleInsert_notfull _ _ _ _ _ _ (by omega) hlt]
      exact ⟨rfl, rfl⟩
    · intro hge
      rw [reservoirSampleInsert_full _ _ _ _ _ _ (by omega) (not_lt.mpr hge)]
      exact ⟨rfl, rfl⟩

/-- Witness for the amended C2 statement at `c2Stats0` (full reservoir). -/
theorem c2_amended_population_counted_after_witness :
    (telemetryStepCode c2Stats0 1 true c2Sample2 1 (fun _ => 1) 0).1.accepted_samples =
      (if (fun _ : ℕ => 1) 0 % (c2Stats0.accepted_candidates + 1) < 1 then
        c2Stats0.accepted_samples.set
          ((fun _ : ℕ => 1) 0 % (c2Stats0.accepted_candidates + 1)) c2Sample2
      else c2Stats0.accepted_samples) ∧
    (telemetryStepCode c2Stats0 1 true c2Sample2 1 (fun _ => 1) 0).2 = 0 + 1 :=
  (c2_amended_population_counted_after c2Stats0 1 c2Sample2 1 (fun _ => 1) 0
    (by decide)).1.2 (by decide)

/-- The data-model invariant of the spec (§3), relative to the shared
reservoir cap. The bucket-list length is part of the invariant because
the histogram update indexes into it. -/
def StatsInvariant (cap : ℕ) (s : ImportStats) : Prop :=
  s.accepted_candidates + s.rejected_candidates = s.quality_observations ∧
  s.quality_observations = s.parsed ∧
  s.quality_buckets.sum = s.quality_observations ∧
  s.quality_buckets.length = QUALITY_BUCKET_COUNT ∧
  s.accepted_samples.length ≤ cap ∧
  s.rejected_samples.length ≤ cap

theorem updateQualityAggregates_counters (s : ImportStats) (q : ℚ) (a : Bool) :
    (updateQualityAggregates s q a).accepted_candidates +
        (updateQualityAggregates s q a).rejected_candidates =
      s.accepted_candidates + s.rejected_candidates + 1 ∧
    (updateQualityAggregates s q a).quality_observations =
      s.quality_observations + 1 ∧
    (updateQualityAggregates s q a).parsed = s.parsed ∧
    (updateQualityAggregates s q a).quality_buckets.length =
      s.quality_buckets.length ∧
    (s.quality_buckets.length = QUALITY_BUCKET_COUNT →
      (updateQualityAggregates s q a).quality_buckets.sum =
        s.quality_buckets.sum + 1) := by
  unfold updateQualityAggregates
  refine ⟨?_, rfl, rfl, by simp, ?_⟩
  · cases a <;> simp <;> omega
  · intro hlen
    simp only
    exact sum_set_getD_add_one _ _
      (by rw [hlen]; exact getQualityBucketIndex_lt _)

theorem reservoirSampleInsert_length (res : List QualitySample)
    (s : QualitySample) (n cap : ℕ) (rng : ℕ → ℕ) (idx : ℕ)
    (h : res.length ≤ cap) :
    (reservoirSampleInsert res s n cap rng idx).1.length ≤ cap := by
  unfold reservoirSampleInsert
  by_cases h0 : cap = 0
  · rw [if_pos h0]
    exact h
  · rw [if_neg h0]
    by_cases hlt : res.length < cap
    · rw [if_pos hlt]
      simp
      omega
    · rw [if_neg hlt]
      by_cases hj : rng idx % n < cap <;> simp [hj, h]

theorem recordQualitySample_inv (s : ImportStats) (smp : QualitySample)
    (a : Bool) (cap : ℕ) (rng : ℕ → ℕ) (idx : ℕ)
    (ha : s.accepted_samples.length ≤ cap)
    (hr : s.rejected_samples.length ≤ cap) :
    (recordQualitySample s smp a cap rng idx).1.accepted_candidates =
      s.accepted_candidates ∧
    (recordQualitySample s smp a cap rng idx).1.rejected_candidates =
      s.rejected_candidates ∧
    (recordQualitySample s smp a cap rng idx).1.quality_observations =
      s.quality_observations ∧
    (recordQualitySample s smp a cap rng idx).1.parsed = s.parsed ∧
    (recordQualitySample s smp a cap rng idx).1.quality_buckets =
      s.quality_buckets ∧
    (recordQualitySample s smp a cap rng idx).1.accepted_samples.length ≤ cap ∧
    (recordQualitySample s smp a cap rng idx).1.rejected_samples.length ≤ cap := by
  cases a
  · rw [recordQualitySample_rejected]
    refine ⟨rfl, rfl, rfl, rfl, rfl, ha, ?_⟩
    exact reservoirSampleInsert_length _ _ _ _ _ _ hr
  · rw [recordQualitySample_accepted]
    refine ⟨rfl, rfl, rfl, rfl, rfl, ?_, hr⟩
    exact reservoirSampleInsert_length _ _ _ _ _ _ ha

theorem statsInvariant_parsedStep (s : ImportStats) (q : ℚ) (a : Bool)
    (smp : QualitySample) (cap : ℕ) (rng : ℕ → ℕ) (idx : ℕ)
    (h : StatsInvariant cap s) :
    StatsInvariant cap
      ((recordQualitySample
        (updateQualityAggregates { s with parsed := s.parsed + 1 } q a)
        smp a cap rng idx).1) := by
  obtain ⟨h1, h2, h3, h4, h5, h6⟩ := h
  set s1 : ImportStats := { s with parsed := s.parsed + 1 } with hs1
  obtain ⟨u1, u2, u3, u4, u5⟩ := updateQualityAggregates_counters s1 q a
  obtain ⟨us1, us2, _, _⟩ := updateQualityAggregates_samples s1 q a
  set s2 := updateQualityAggregates s1 q a with hs2
  obtain ⟨r1, r2, r3, r4, r5, r6, r7⟩ :=
    recordQualitySample_inv s2 smp a cap rng idx
      (by rw [us1]; exact h5) (by rw [us2]; exact h6)
  refine ⟨?_, ?_, ?_, ?_, r6, r7⟩
  · rw [r1, r2, r3, u1, u2]
    have : s1.accepted_candidates + s1.rejected_candidates =
        s1.quality_observations := h1
    omega
  · rw [r3, r4, u2, u3]
    have hp : s1.parsed = s.parsed + 1 := rfl
    have ho : s1.quality_observations = s.quality_observations := rfl
    omega
  · rw [r5, r3, u2]
    rw [u5 (by exact h4)]
    have hb : s1.quality_buckets = s.quality_buckets := rfl
    rw [hb, h3]
  · rw [r5, u4]
    exact h4

theorem processLine_inv (cfg : ImportConfig) (st : RunState) (n : ℕ)
    (rawLine : Str) (h : StatsInvariant cfg.sample_cap st.stats) :
    StatsInvariant cfg.sample_cap (processLine cfg st n rawLine).stats := by
  unfold processLine
  by_cases hb : (pyStrip importWsChars rawLine).isEmpty
  · rw [if_pos hb]
    exact h
  · rw [if_neg hb]
    rcases hp : parseFactoidLine (pyStrip importWsChars rawLine) with _ | kv
    · exact h
    · dsimp only
      have h3 := statsInvariant_parsedStep
        { st.stats with total_lines := st.stats.total_lines + 1 }
        (calculateQualityScore (cleanIrcFormatting kv.1) (cleanIrcFormatting kv.2))
        (decide (cfg.quality_threshold ≤
          calculateQualityScore (cleanIrcFormatting kv.1) (cleanIrcFormatting kv.2)))
        (buildQualitySample cfg.fileName n (cleanIrcFormatting kv.1)
          (cleanIrcFormatting kv.2)
          (calculateQualityScore (cleanIrcFormatting kv.1) (cleanIrcFormatting kv.2)))
        cfg.sample_cap cfg.rngStream st.rngIdx h
      split
      · exact h3
      · split
        · exact h3
        · split
          · exact h3
          · exact h3

theorem processLines_inv (cfg : ImportConfig) :
    ∀ (lines : List Str) (st : RunState) (n : ℕ),
    StatsInvariant cfg.sample_cap st.stats →
    StatsInvariant cfg.sample_cap (processLines cfg st n lines).stats := by
  intro lines
  induction lines with
  | nil => intro st n h; exact h
  | cons line rest ih =>
      intro st n h
      exact ih (processLine cfg st n line) (n + 1) (processLine_inv cfg st n line h)

theorem refreshQualityPercentiles_inv (cap : ℕ) (s s2 : ImportStats)
    (h : StatsInvariant cap s) (hr : refreshQualityPercentiles s = .ok s2) :
    StatsInvariant cap s2 := by
  rw [refreshQualityPercentiles_ok s h.2.2.2.1] at hr
  obtain rfl : ({ s with
      quality_p50 := percentileValue s.quality_buckets 50
      quality_p75 := percentileValue s.quality_buckets 75
      quality_p90 := percentileValue s.quality_buckets 90
      quality_p95 := percentileValue s.quality_buckets 95 } : ImportStats) = s2 := by
    simpa using hr
  exact h

theorem importFactoidFile_inv (cfg : ImportConfig) (fileExists : Bool)
    (lines : List Str) (readFails : Bool) (stats : ImportStats)
    (store : List (Str × FactoidType)) (rngIdx clockIdx : ℕ)
    (h : StatsInvariant cfg.sample_cap stats)
    (out : ImportStats × List (Str × FactoidType) × ℕ × ℕ)
    (hok : importFactoidFile cfg fileExists lines readFails stats store rngIdx
      clockIdx = .ok out) :
    StatsInvariant cfg.sample_cap out.1 := by
  unfold importFactoidFile at hok
  by_cases hv1 : ¬(0 ≤ cfg.quality_threshold ∧ cfg.quality_threshold ≤ 1)
  · rw [if_pos hv1] at hok
    exact absurd hok (by simp)
  rw [if_neg hv1] at hok
  by_cases hv2 : cfg.diagnostic_parsed_interval = 0
  · rw [if_pos hv2] at hok
    exact absurd hok (by simp)
  rw [if_neg hv2] at hok
  by_cases hv3 : ¬(0 < cfg.diagnostic_seconds_interval)
  · rw [if_pos hv3] at hok
    exact absurd hok (by simp)
  rw [if_neg hv3] at hok
  dsimp only at hok
  by_cases hex : fileExists = true
  · rw [if_neg (by simp [hex])] at hok
    have hloop := processLines_inv cfg lines
      ⟨stats, store, rngIdx, clockIdx + 1, stats.parsed, cfg.clockStream clockIdx⟩
      1 h
    have hE : StatsInvariant cfg.sample_cap
        (if readFails then
          { (processLines cfg
              ⟨stats, store, rngIdx, clockIdx + 1, stats.parsed,
                cfg.clockStream clockIdx⟩ 1 lines).stats with
            errors := (processLines cfg
              ⟨stats, store, rngIdx, clockIdx + 1, stats.parsed,
                cfg.clockStream clockIdx⟩ 1 lines).stats.errors + 1 }
        else (processLines cfg
          ⟨stats, store, rngIdx, clockIdx + 1, stats.parsed,
            cfg.clockStream clockIdx⟩ 1 lines).stats) := by
      by_cases hrf : readFails = true
      · rw [if_pos hrf]
        exact hloop
      · rw [if_neg hrf]
        exact hloop
    rcases hrq : refreshQualityPercentiles
        (if readFails then
          { (processLines cfg
              ⟨stats, store, rngIdx, clockIdx + 1, stats.parsed,
                cfg.clockStream clockIdx⟩ 1 lines).stats with
            errors := (processLines cfg
              ⟨stats, store, rngIdx, clockIdx + 1, stats.parsed,
                cfg.clockStream clockIdx⟩ 1 lines).stats.errors + 1 }
        else (processLines cfg
          ⟨stats, store, rngIdx, clockIdx + 1, stats.parsed,
            cfg.clockStream clockIdx⟩ 1 lines).stats) with _ | statsR
    · rw [hrq] at hok
      exact absurd hok (by simp)
    · rw [hrq] at hok
      have := refreshQualityPercentiles_inv cfg.sample_cap _ _ hE hrq
      obtain rfl : (statsR, (processLines cfg
          ⟨stats, store, rngIdx, clockIdx + 1, stats.parsed,
            cfg.clockStream clockIdx⟩ 1 lines).store,
          (processLines cfg
          ⟨stats, store, rngIdx, clockIdx + 1, stats.parsed,
            cfg.clockStream clockIdx⟩ 1 lines).rngIdx,
          (processLines cfg
          ⟨stats, store, rngIdx, clockIdx + 1, stats.parsed,
            cfg.clockStream clockIdx⟩ 1 lines).clockIdx) = out := by
        simpa using hok
      exact this
  · rw [if_pos (by simp [hex])] at hok
    obtain rfl : (stats, store, rngIdx, clockIdx + 1) = out := by simpa using hok
    exact h

theorem importMany_inv (cap : ℕ) : ∀ (jobs : List FileJob)
    (acc : ImportStats × List (Str × FactoidType) × ℕ × ℕ),
    (∀ job ∈ jobs, job.cfg.sample_cap = cap) →
    StatsInvariant cap acc.1 →
    ∀ out, importMany jobs acc = .ok out → StatsInvariant cap out.1 := by
  intro jobs
  induction jobs with
  | nil =>
      intro acc hcaps h out hok
      unfold importMany at hok
      obtain rfl : acc = out := by simpa using hok
      exact h
  | cons job rest ih =>
      intro acc hcaps h out hok
      unfold importMany at hok
      rcases hstep : importFactoidFile job.cfg job.fileExists job.lines
          job.readFails acc.1 acc.2.1 acc.2.2.1 acc.2.2.2 with _ | acc2
      · rw [hstep] at hok
        simp at hok
      · rw [hstep] at hok
        have hcapj : job.cfg.sample_cap = cap := hcaps job (by simp)
        have hinv2 := importFactoidFile_inv job.cfg job.fileExists job.lines
          job.readFails acc.1 acc.2.1 acc.2.2.1 acc.2.2.2
          (by rw [hcapj]; exact h) acc2 hstep
        rw [hcapj] at hinv2
        exact ih acc2 (fun j hj => hcaps j (by simp [hj])) hinv2 out hok

/-- C1: after processing any sequence of lines through the orchestrator
(`import_factoid_file` over any number of files sharing one `ImportStats`
and one reservoir cap, starting from a fresh `ImportStats()`), the stats
satisfy `accepted_candidates + rejected_candidates == quality_observations
== parsed`, `sum(quality_buckets) == quality_observations`,
`len(accepted_samples) <= sample_cap`, and
`len(rejected_samples) <= sample_cap`. -/
theorem c1_import_stats_invariants (jobs : List FileJob) (cap : ℕ)
    (store0 : List (Str × FactoidType)) (rngIdx0 clockIdx0 : ℕ)
    (hcaps : ∀ job ∈ jobs, job.cfg.sample_cap = cap)
    (out : ImportStats × List (Str × FactoidType) × ℕ × ℕ)
    (hok : importMany jobs (initialImportStats, store0, rngIdx0, clockIdx0) =
      .ok out) :
    out.1.accepted_candidates + out.1.rejected_candidates =
        out.1.quality_observations ∧
    out.1.quality_observations = out.1.parsed ∧
    out.1.quality_buckets.sum = out.1.quality_observations ∧
    out.1.accepted_samples.length ≤ cap ∧
    out.1.rejected_samples.length ≤ cap := by
  have hinit : StatsInvariant cap initialImportStats := by
    refine ⟨rfl, rfl, ?_, ?_, Nat.zero_le cap, Nat.zero_le cap⟩
    · simp [initialImportStats, List.sum_replicate]
    · simp [initialImportStats]
  have h := importMany_inv cap jobs (initialImportStats, store0, rngIdx0, clockIdx0)
    hcaps hinit out hok
  exact ⟨h.1, h.2.1, h.2.2.1, h.2.2.2.2.1, h.2.2.2.2.2⟩

/-- The loop state reached after reading the lines of an existing file
(the `else` branch of the existence check in `import_factoid_file`). -/
def importLoopState (cfg : ImportConfig) (lines : List Str)
    (stats : ImportStats) (store : List (Str × FactoidType))
    (rngIdx clockIdx : ℕ) : RunState :=
  processLines cfg
    ⟨stats, store, rngIdx, clockIdx + 1, stats.parsed, cfg.clockStream clockIdx⟩
    1 lines

theorem importFactoidFile_missing_eq (cfg : ImportConfig) (lines : List Str)
    (readFails : Bool) (stats : ImportStats) (store : List (Str × FactoidType))
    (rngIdx clockIdx : ℕ)
    (hv1 : 0 ≤ cfg.quality_threshold ∧ cfg.quality_threshold ≤ 1)
    (hv2 : cfg.diagnostic_parsed_interval ≠ 0)
    (hv3 : 0 < cfg.diagnostic_seconds_interval) :
    importFactoidFile cfg false lines readFails stats store rngIdx clockIdx =
      .ok (stats, store, rngIdx, clockIdx + 1) := by
  unfold importFactoidFile
  rw [if_neg (not_not_intro hv1), if_neg hv2, if_neg (not_not_intro hv3)]
  dsimp only
  rw [if_pos (by simp)]

theorem importFactoidFile_exists_readfail_eq (cfg : ImportConfig)
    (lines : List Str) (stats : ImportStats) (store : List (Str × FactoidType))
    (rngIdx clockIdx : ℕ)
    (hv1 : 0 ≤ cfg.quality_threshold ∧ cfg.quality_threshold ≤ 1)
    (hv2 : cfg.diagnostic_parsed_interval ≠ 0)
    (hv3 : 0 < cfg.diagnostic_seconds_interval)
    (hinv : StatsInvariant cfg.sample_cap stats) :
    importFactoidFile cfg true lines true stats store rngIdx clockIdx =
      .ok (
        { (importLoopState cfg lines stats store rngIdx clockIdx).stats with
          errors :=
            (importLoopState cfg lines stats store rngIdx clockIdx).stats.errors + 1
          quality_p50 := percentileValue
            (importLoopState cfg lines stats store rngIdx clockIdx).stats.quality_buckets 50
          quality_p75 := percentileValue
            (importLoopState cfg lines stats store rngIdx clockIdx).stats.quality_buckets 75
          quality_p90 := percentileValue
            (importLoopState cfg lines stats store rngIdx clockIdx).stats.quality_buckets 90
          quality_p95 := percentileValue
            (importLoopState cfg lines stats store rngIdx clockIdx).stats.quality_buckets 95 },
        (importLoopState cfg lines stats store rngIdx clockIdx).store,
        (importLoopState cfg lines stats store rngIdx clockIdx).rngIdx,
        (importLoopState cfg lines stats store rngIdx clockIdx).clockIdx) := by
  have hloop : StatsInvariant cfg.sample_cap
      (importLoopState cfg lines stats store rngIdx clockIdx).stats :=
    processLines_inv cfg lines _ 1 hinv
  unfold importFactoidFile
  rw [if_neg (not_not_intro hv1), if_neg hv2, if_neg (not_not_intro hv3),
    if_neg (by simp)]
  dsimp only
  rw [if_pos rfl]
  rw [show (processLines cfg
      ⟨stats, store, rngIdx, clockIdx + 1, stats.parsed,
        cfg.clockStream clockIdx⟩ 1 lines) =
    importLoopState cfg lines stats store rngIdx clockIdx from rfl]
  rw [refreshQualityPercentiles_ok _ (by exact hloop.2.2.2.1)]

theorem importFactoidFile_exists_ok_eq (cfg : ImportConfig)
    (lines : List Str) (stats : ImportStats) (store : List (Str × FactoidType))
    (rngIdx clockIdx : ℕ)
    (hv1 : 0 ≤ cfg.quality_threshold ∧ cfg.quality_threshold ≤ 1)
    (hv2 : cfg.diagnostic_parsed_interval ≠ 0)
    (hv3 : 0 < cfg.diagnostic_seconds_interval)
    (hinv : StatsInvariant cfg.sample_cap stats) :
    importFactoidFile cfg true lines false stats store rngIdx clockIdx =
      .ok (
        { (importLoopState cfg lines stats store rngIdx clockIdx).stats with
          quality_p50 := percentileValue
            (importLoopState cfg lines stats store rngIdx clockIdx).stats.quality_buckets 50
          quality_p75 := percentileValue
            (importLoopState cfg lines stats store rngIdx clockIdx).stats.quality_buckets 75
          quality_p90 := percentileValue
            (importLoopState cfg lines stats store rngIdx clockIdx).stats.quality_buckets 90
          quality_p95 := percentileValue
            (importLoopState cfg lines stats store rngIdx clockIdx).stats.quality_buckets 95 },
        (importLoopState cfg lines stats store rngIdx clockIdx).store,
        (importLoopState cfg lines stats store rngIdx clockIdx).rngIdx,
        (importLoopState cfg lines stats store rngIdx clockIdx).clockIdx) := by
  have hloop : StatsInvariant cfg.sample_cap
      (importLoopState cfg lines stats store rngIdx clockIdx).stats :=
    processLines_inv cfg lines _ 1 hinv
  unfold importFactoidFile
  rw [if_neg (not_not_intro hv1), if_neg hv2, if_neg (not_not_intro hv3),
    if_neg (by simp)]
  dsimp only
  simp only [Bool.false_eq_true, if_false]
  rw [show (processLines cfg
      ⟨stats, store, rngIdx, clockIdx + 1, stats.parsed,
        cfg.clockStream clockIdx⟩ 1 lines) =
    importLoopState cfg lines stats store rngIdx clockIdx from rfl]
  rw [refreshQualityPercentiles_ok _ (by exact hloop.2.2.2.1)]

/-- C10: when the target file does not exist, `import_factoid_file`
returns the supplied `ImportStats` with every field unchanged — in
particular `errors` is not incremented and the percentile fields are not
refreshed, because the function returns before the read loop and before
the final `refresh_quality_percentiles` call. A mid-read I/O failure, by
contrast, increments `errors` exactly once and does refresh the
percentile fields. -/
theorem c10_missing_file_stats_unchanged (cfg : ImportConfig)
    (lines : List Str) (readFails : Bool) (stats : ImportStats)
    (store : List (Str × FactoidType)) (rngIdx clockIdx : ℕ)
    (hv1 : 0 ≤ cfg.quality_threshold ∧ cfg.quality_threshold ≤ 1)
    (hv2 : cfg.diagnostic_parsed_interval ≠ 0)
    (hv3 : 0 < cfg.diagnostic_seconds_interval) :
    importFactoidFile cfg false lines readFails stats store rngIdx clockIdx =
      .ok (stats, store, rngIdx, clockIdx + 1) ∧
    (StatsInvariant cfg.sample_cap stats →
      ∀ out, importFactoidFile cfg true lines true stats store rngIdx clockIdx =
        .ok out →
      out.1.errors =
        (importLoopState cfg lines stats store rngIdx clockIdx).stats.errors + 1 ∧
      out.1.quality_p50 = percentileValue
        (importLoopState cfg lines stats store rngIdx clockIdx).stats.quality_buckets
        50) := by
  refine ⟨importFactoidFile_missing_eq cfg lines readFails stats store rngIdx
    clockIdx hv1 hv2 hv3, ?_⟩
  intro hinv out hout
  rw [importFactoidFile_exists_readfail_eq cfg lines stats store rngIdx clockIdx
    hv1 hv2 hv3 hinv] at hout
  have h : _ = out := (Except.ok.injEq _ _).mp hout
  subst h
  exact ⟨rfl, rfl⟩

/-- A concrete import configuration used to witness C10. -/
def c10Cfg : ImportConfig :=
  { fileName := "infobot-is.txt".toList
    factoidType := .IS
    quality_threshold := 1/2
    sample_cap := 20
    rngStream := fun _ => 0
    clockStream := fun _ => 0
    diagnostic_parsed_interval := 1000
    diagnostic_seconds_interval := 30 }

theorem c10_missing_file_stats_unchanged_witness :
    (importFactoidFile c10Cfg false [] false initialImportStats [] 0 0 =
      .ok (initialImportStats, [], 0, 0 + 1)) ∧
    (StatsInvariant c10Cfg.sample_cap initialImportStats →
      ∀ out, importFactoidFile c10Cfg true [] true initialImportStats [] 0 0 =
        .ok out →
      out.1.errors =
        (importLoopState c10Cfg [] initialImportStats [] 0 0).stats.errors + 1 ∧
      out.1.quality_p50 = percentileValue
        (importLoopState c10Cfg [] initialImportStats [] 0 0).stats.quality_buckets
        50) :=
  c10_missing_file_stats_unchanged c10Cfg [] false initialImportStats [] 0 0
    ⟨by norm_num [c10Cfg], by norm_num [c10Cfg]⟩ (by decide)
    (by norm_num [c10Cfg])

/-- A concrete import configuration used to witness C1. -/
def c1Cfg : ImportConfig :=
  { fileName := "infobot-is.txt".toList
    factoidType := .IS
    quality_threshold := 0
    sample_cap := 20
    rngStream := fun _ => 0
    clockStream := fun _ => 0
    diagnostic_parsed_interval := 1000
    diagnostic_seconds_interval := 30 }

/-- A concrete file job used to witness C1. -/
def c1Job : FileJob :=
  { cfg := c1Cfg
    fileExists := false
    lines := []
    readFails := false }

theorem c1_import_stats_invariants_witness :
    initialImportStats.accepted_candidates + initialImportStats.rejected_candidates =
        initialImportStats.quality_observations ∧
    initialImportStats.quality_observations = initialImportStats.parsed ∧
    initialImportStats.quality_buckets.sum = initialImportStats.quality_observations ∧
    initialImportStats.accepted_samples.length ≤ 20 ∧
    initialImportStats.rejected_samples.length ≤ 20 :=
  c1_import_stats_invariants [c1Job] 20 [] 0 0
    (by
      intro job hj
      rw [List.mem_singleton] at hj
      subst hj
      rfl)
    (initialImportStats, [], 0, 1)
    (by
      have hmiss := importFactoidFile_missing_eq c1Cfg [] false initialImportStats
        [] 0 0 ⟨by norm_num [c1Cfg], by norm_num [c1Cfg]⟩ (by decide)
        (by norm_num [c1Cfg])
      simp only [importMany, c1Job, hmiss])
